import Mathlib

/-!
Verification development for the sports-betting odds core: a shallow embedding of
the odds-math utilities (`src/utils/odds.ts`), the identifier derivation helpers
(`src/utils/oddsIds.ts`), the ingestion pipeline (`OddsIngestionService.ts`), the
arbitrage and cheat-sheet analytics services, the feed client's control flow
(`OddsApiService`) and the positive-EV controller, together with proofs of the
frozen specification claims.

Modelling conventions:
* JavaScript numbers are modelled as `Rat` (exact rational arithmetic); the
  `Number.isFinite` guards of the source are therefore always satisfied and the
  non-finite branches are unreachable in the embedding.
* Timestamps are epoch milliseconds, modelled as `Nat`.
* A possibly-absent JavaScript value (`undefined`/`null`) is an `Option`.
* Mongo collections are association lists from the document's unique `id` to the
  written fields; `updateOne` with `$setOnInsert`+`upsert` is insert-if-absent and
  `updateOne` with `$set`+`upsert` is upsert-replace.
* Only the ASCII fragment of JavaScript case mapping and whitespace is modelled;
  all strings of interest in the claims are ASCII.
-/

/-- JavaScript `a || b` on a possibly-absent string: the fallback is used when the
value is absent or empty (falsy). -/
def jsOrStr (a : Option String) (b : String) : String :=
  match a with
  | some s => if s = "" then b else s
  | none => b

/-- ASCII whitespace, the fragment of the JavaScript `\s` class exercised here. -/
def isJsWs (c : Char) : Bool :=
  c = ' ' || c = '\t' || c = '\n' || c = '\r'

/-- JavaScript `String.prototype.trim` on a character list (ASCII fragment). -/
def trimCharList (l : List Char) : List Char :=
  ((l.dropWhile isJsWs).reverse.dropWhile isJsWs).reverse

/-- JavaScript `String.prototype.trim` (ASCII fragment). -/
def trimStr (s : String) : String :=
  String.mk (trimCharList s.data)

/-- Replace each maximal run of whitespace by a single hyphen, as in the source's
`.replace(/\s+/g, "-")`. The boolean records whether the previous character was
whitespace. -/
def collapseWsAux : Bool → List Char → List Char
  | _, [] => []
  | prevWs, c :: rest =>
    if isJsWs c then
      if prevWs then collapseWsAux true rest
      else '-' :: collapseWsAux true rest
    else c :: collapseWsAux false rest

/-- Characters kept by the slug transform: `[a-z0-9\-:_]`. -/
def isSlugKeep (c : Char) : Bool :=
  ('a' ≤ c && c ≤ 'z') || ('0' ≤ c && c ≤ '9') || c = '-' || c = ':' || c = '_'

/-- The `slug` helper of `src/utils/oddsIds.ts`: lowercase, trim, collapse
whitespace runs to hyphens, strip characters outside `[a-z0-9\-:_]`. -/
def slug (v : String) : String :=
  String.mk ((collapseWsAux false (trimCharList (v.data.map Char.toLower))).filter isSlugKeep)

/-- Coerce an integer into the signed 32-bit range, as JavaScript `| 0` does. -/
def toInt32 (x : Int) : Int :=
  let m := x % 4294967296
  if m < 2147483648 then m else m - 4294967296

/-- One step of the rolling hash `h = (h * 31 + charCode) | 0`. -/
def hashStep (h : Int) (c : Char) : Int :=
  toInt32 (h * 31 + c.toNat)

/-- `makeSportIdFromKey` of `src/utils/oddsIds.ts`: 32-bit rolling hash of the
sport key, then absolute value. -/
def makeSportIdFromKey (sportKey : String) : Nat :=
  (sportKey.data.foldl hashStep 0).natAbs

/-- `makeTeamId` of `src/utils/oddsIds.ts`. -/
def makeTeamId (sportId : Nat) (teamName : String) : String :=
  "team:" ++ toString sportId ++ ":" ++ slug teamName

/-- `makeSportsbookId` of `src/utils/oddsIds.ts`. -/
def makeSportsbookId (bookKey : String) : String :=
  "book:" ++ slug bookKey

/-- `makeEventId` of `src/utils/oddsIds.ts`. -/
def makeEventId (externalEventId : String) : String :=
  "evt:" ++ slug externalEventId

/-- `makeMarketId` of `src/utils/oddsIds.ts`. -/
def makeMarketId (eventId bookId marketKey : String) : String :=
  "mkt:" ++ eventId ++ ":" ++ bookId ++ ":" ++ slug marketKey

/-- Printable form of a numeric line value used in the `:${point}` suffix of a
selection id. The JavaScript decimal rendering of a number is abstracted by a
deterministic rendering of the rational; the claims only depend on the suffix
being a pure function of the point. -/
def ratSuffixStr (q : Rat) : String :=
  if q.den = 1 then toString q.num else toString q.num ++ "/" ++ toString q.den

/-- `makeSelectionId` of `src/utils/oddsIds.ts`: the line suffix is appended only
when the point is a number. -/
def makeSelectionId (marketId outcomeName : String) (point : Option Rat) : String :=
  let pt := match point with
    | some q => ":" ++ ratSuffixStr q
    | none => ""
  "sel:" ++ marketId ++ ":" ++ slug outcomeName ++ pt

/-- `makeOddsSnapshotId` of `src/utils/oddsIds.ts`: epoch-milliseconds base times
1000 plus the zero-based index within the batch. -/
def makeOddsSnapshotId (batchEpochMs : Nat) (index : Nat) : Nat :=
  batchEpochMs * 1000 + index

/-- `americanToImpliedProb` of `src/utils/odds.ts`. The source returns 0 for a
zero or non-finite argument; over `Rat` every value is finite. -/
def americanToImpliedProb (american : Rat) : Rat :=
  if american = 0 then 0
  else if 0 < american then 100 / (american + 100)
  else |american| / (|american| + 100)

/-- `americanToDecimal` of `src/utils/odds.ts`. -/
def americanToDecimal (american : Rat) : Rat :=
  if american = 0 then 0
  else if 0 < american then 1 + american / 100
  else 1 + 100 / |american|

/-- `decimalToImpliedProb` of `src/utils/odds.ts`: `1/decimal` for a positive
argument, 0 otherwise (the source's `!decimal || decimal <= 0` guard). -/
def decimalToImpliedProb (decimal : Rat) : Rat :=
  if decimal ≤ 0 then 0 else 1 / decimal

lemma americanToDecimal_pos {x : Rat} (hx : x ≠ 0) : 0 < americanToDecimal x := by
  unfold americanToDecimal
  rw [if_neg hx]
  rcases lt_trichotomy 0 x with h | h | h
  · rw [if_pos h]
    positivity
  · exact absurd h.symm hx
  · rw [if_neg (not_lt.mpr h.le)]
    positivity

/-- C7: composing `americanToDecimal` with `decimalToImpliedProb` agrees exactly
with `americanToImpliedProb` on every nonzero American odds value, and
`americanToImpliedProb` computes `100/(x+100)` for positive x and
`|x|/(|x|+100)` for negative x and 0 at 0. -/
theorem odds_roundtrip_c7 (x : Rat) (hx : x ≠ 0) :
    decimalToImpliedProb (americanToDecimal x) = americanToImpliedProb x ∧
    (0 < x → americanToImpliedProb x = 100 / (x + 100)) ∧
    (x < 0 → americanToImpliedProb x = |x| / (|x| + 100)) ∧
    americanToImpliedProb 0 = 0 := by
  refine ⟨?_, ?_, ?_, ?_⟩
  · have hdec : 0 < americanToDecimal x := americanToDecimal_pos hx
    unfold decimalToImpliedProb
    rw [if_neg (not_le.mpr hdec)]
    unfold americanToDecimal americanToImpliedProb
    rcases lt_trichotomy 0 x with h | h | h
    · rw [if_neg hx, if_pos h, if_neg hx, if_pos h]
      have hx100 : x + 100 ≠ 0 := by positivity
      field_simp
      ring
    · exact absurd h.symm hx
    · rw [if_neg hx, if_neg (not_lt.mpr h.le), if_neg hx, if_neg (not_lt.mpr h.le)]
      have habs : (0:Rat) < |x| := abs_pos.mpr hx
      have h1 : |x| ≠ 0 := ne_of_gt habs
      have h2 : |x| + 100 ≠ 0 := by positivity
      field_simp
  · intro h
    unfold americanToImpliedProb
    rw [if_neg hx, if_pos h]
  · intro h
    unfold americanToImpliedProb
    rw [if_neg hx, if_neg (not_lt.mpr h.le)]
  · unfold americanToImpliedProb
    rw [if_pos rfl]

/-- Witness for C7 at the concrete odds +150 (and the hypothesis at -110 holds
as well, exercised through a second application). -/
theorem odds_roundtrip_c7_witness :
    (decimalToImpliedProb (americanToDecimal 150) = americanToImpliedProb 150 ∧
      (0 < (150:Rat) → americanToImpliedProb 150 = 100 / (150 + 100)) ∧
      ((150:Rat) < 0 → americanToImpliedProb 150 = |(150:Rat)| / (|(150:Rat)| + 100)) ∧
      americanToImpliedProb 0 = 0) ∧
    decimalToImpliedProb (americanToDecimal (-110)) = americanToImpliedProb (-110) :=
  ⟨odds_roundtrip_c7 150 (by decide), (odds_roundtrip_c7 (-110) (by decide)).1⟩

/-! ### Generic document-store collections

A Mongo collection is an association list from unique document id to the stored
fields. `updateOne` with `$set` and `upsert: true` is `upsertReplace`; `updateOne`
with `$setOnInsert` and `upsert: true` is `insertIfAbsent`. A batch of writes to
one collection is applied in source order by `applyPuts` / `applyInserts`. -/

section StoreGeneric

variable {κ : Type} {ρ ρ2 : Type} [DecidableEq κ]

/-- Test whether a collection holds a document with the given id. -/
def containsKey (l : List (κ × ρ)) (k : κ) : Bool :=
  l.any (fun p => decide (p.1 = k))

/-- Upsert-replace: overwrite the document in place when the id exists, append a
new document otherwise. -/
def upsertReplace (l : List (κ × ρ)) (k : κ) (v : ρ) : List (κ × ρ) :=
  if containsKey l k then l.map (fun p => if p.1 = k then (k, v) else p)
  else l ++ [(k, v)]

/-- Insert-if-absent: leave the collection unchanged when the id exists. -/
def insertIfAbsent (l : List (κ × ρ)) (k : κ) (v : ρ) : List (κ × ρ) :=
  if containsKey l k then l else l ++ [(k, v)]

/-- Apply a list of upsert-replace writes in order. -/
def applyPuts (l : List (κ × ρ)) (ops : List (κ × ρ)) : List (κ × ρ) :=
  ops.foldl (fun acc op => upsertReplace acc op.1 op.2) l

/-- Apply a list of insert-if-absent writes in order. -/
def applyInserts (l : List (κ × ρ)) (ops : List (κ × ρ)) : List (κ × ρ) :=
  ops.foldl (fun acc op => insertIfAbsent acc op.1 op.2) l

lemma applyPuts_nil (l : List (κ × ρ)) : applyPuts l [] = l := rfl

lemma applyPuts_cons (l : List (κ × ρ)) (op : κ × ρ) (ops : List (κ × ρ)) :
    applyPuts l (op :: ops) = applyPuts (upsertReplace l op.1 op.2) ops := rfl

lemma applyInserts_nil (l : List (κ × ρ)) : applyInserts l [] = l := rfl

lemma applyInserts_cons (l : List (κ × ρ)) (op : κ × ρ) (ops : List (κ × ρ)) :
    applyInserts l (op :: ops) = applyInserts (insertIfAbsent l op.1 op.2) ops := rfl

lemma containsKey_map_keyfix (l : List (κ × ρ)) (k k' : κ) (v : ρ) :
    containsKey (l.map (fun p => if p.1 = k then (k, v) else p)) k' = containsKey l k' := by
  simp only [containsKey, List.any_map]
  congr 1
  funext p
  by_cases h : p.1 = k <;> simp [h, Function.comp]

lemma containsKey_upsertReplace (l : List (κ × ρ)) (k k' : κ) (v : ρ) :
    containsKey (upsertReplace l k v) k' = (containsKey l k' || decide (k' = k)) := by
  unfold upsertReplace
  by_cases h : containsKey l k
  · rw [if_pos h, containsKey_map_keyfix]
    by_cases hk : k' = k
    · subst hk
      simp [h]
    · simp [hk]
  · rw [if_neg h]
    by_cases hk : k' = k
    · subst hk
      simp [containsKey, List.any_append]
    · have hk2 : ¬k = k' := fun h2 => hk h2.symm
      simp [containsKey, List.any_append, hk, hk2]

lemma containsKey_insertIfAbsent (l : List (κ × ρ)) (k k' : κ) (v : ρ) :
    containsKey (insertIfAbsent l k v) k' = (containsKey l k' || decide (k' = k)) := by
  unfold insertIfAbsent
  by_cases h : containsKey l k
  · rw [if_pos h]
    by_cases hk : k' = k
    · subst hk
      simp [h]
    · simp [hk]
  · rw [if_neg h]
    by_cases hk : k' = k
    · subst hk
      simp [containsKey, List.any_append]
    · have hk2 : ¬k = k' := fun h2 => hk h2.symm
      simp [containsKey, List.any_append, hk, hk2]

lemma insertIfAbsent_of_containsKey {l : List (κ × ρ)} {k : κ} (v : ρ)
    (h : containsKey l k = true) : insertIfAbsent l k v = l := by
  unfold insertIfAbsent
  rw [if_pos h]

lemma mem_of_mem_upsertReplace {l : List (κ × ρ)} {k : κ} {v : ρ} {p : κ × ρ}
    (hp : p ∈ upsertReplace l k v) (hne : p.1 ≠ k) : p ∈ l := by
  unfold upsertReplace at hp
  by_cases h : containsKey l k
  · rw [if_pos h] at hp
    obtain ⟨q, hq, hqe⟩ := List.mem_map.mp hp
    by_cases hqk : q.1 = k
    · rw [if_pos hqk] at hqe
      exact absurd (hqe ▸ rfl : p.1 = k) hne
    · rw [if_neg hqk] at hqe
      exact hqe ▸ hq
  · rw [if_neg h] at hp
    rcases List.mem_append.mp hp with h1 | h1
    · exact h1
    · simp only [List.mem_singleton] at h1
      exact absurd (h1 ▸ rfl : p.1 = k) hne

lemma snd_of_mem_upsertReplace {l : List (κ × ρ)} {k : κ} {v : ρ} {p : κ × ρ}
    (hp : p ∈ upsertReplace l k v) (hk : p.1 = k) : p.2 = v := by
  unfold upsertReplace at hp
  by_cases h : containsKey l k
  · rw [if_pos h] at hp
    obtain ⟨q, _, hqe⟩ := List.mem_map.mp hp
    by_cases hqk : q.1 = k
    · rw [if_pos hqk] at hqe
      exact (hqe ▸ rfl : p.2 = v)
    · rw [if_neg hqk] at hqe
      exact absurd ((hqe ▸ hk : q.1 = k)) hqk
  · rw [if_neg h] at hp
    rcases List.mem_append.mp hp with h1 | h1
    · exact absurd (hk ▸ (List.any_eq_true.mpr ⟨p, h1, by simp [hk]⟩ : containsKey l k = true)) h
    · simp only [List.mem_singleton] at h1
      exact (h1 ▸ rfl : p.2 = v)

lemma containsKey_applyPuts_mono {l : List (κ × ρ)} {ops : List (κ × ρ)} {k : κ}
    (h : containsKey l k = true) : containsKey (applyPuts l ops) k = true := by
  induction ops generalizing l with
  | nil => exact h
  | cons op ops ih =>
    rw [applyPuts_cons]
    exact ih (by rw [containsKey_upsertReplace, h, Bool.true_or])

lemma containsKey_applyPuts_of_mem {l : List (κ × ρ)} {ops : List (κ × ρ)} {op : κ × ρ}
    (h : op ∈ ops) : containsKey (applyPuts l ops) op.1 = true := by
  induction ops generalizing l with
  | nil => cases h
  | cons op' ops ih =>
    rw [applyPuts_cons]
    rcases List.mem_cons.mp h with h1 | h1
    · subst h1
      exact containsKey_applyPuts_mono
        (by rw [containsKey_upsertReplace]; simp)
    · exact ih h1

/-- Value written to a key by the last write in the list touching it, if any. -/
def lastVal : List (κ × ρ) → κ → Option ρ
  | [], _ => none
  | op :: ops, k =>
    match lastVal ops k with
    | some w => some w
    | none => if op.1 = k then some op.2 else none

lemma lastVal_eq_none {ops : List (κ × ρ)} {k : κ} (h : lastVal ops k = none) :
    ∀ q ∈ ops, q.1 ≠ k := by
  induction ops with
  | nil => intro q hq; cases hq
  | cons op ops ih =>
    intro q hq
    unfold lastVal at h
    cases hlv : lastVal ops k with
    | some w => rw [hlv] at h; cases h
    | none =>
      rw [hlv] at h
      rcases List.mem_cons.mp hq with h1 | h1
      · subst h1
        intro hk
        rw [if_pos hk] at h
        cases h
      · exact ih hlv q h1

lemma mem_applyPuts_untouched {ops : List (κ × ρ)} {k : κ}
    (hops : ∀ q ∈ ops, q.1 ≠ k) :
    ∀ {l : List (κ × ρ)} {p : κ × ρ}, p ∈ applyPuts l ops → p.1 = k → p ∈ l := by
  induction ops with
  | nil => intro l p hp _; exact hp
  | cons op ops ih =>
    intro l p hp hk
    rw [applyPuts_cons] at hp
    have hmem : p ∈ upsertReplace l op.1 op.2 :=
      ih (fun q hq => hops q (List.mem_cons_of_mem _ hq)) hp hk
    exact mem_of_mem_upsertReplace hmem
      (by rw [hk]; exact fun he => hops op (List.mem_cons_self _ _) he.symm)

lemma snd_eq_lastVal {ops : List (κ × ρ)} :
    ∀ {l : List (κ × ρ)} {p : κ × ρ} {w : ρ},
      p ∈ applyPuts l ops → lastVal ops p.1 = some w → p.2 = w := by
  induction ops with
  | nil => intro l p w _ hw; cases hw
  | cons op ops ih =>
    intro l p w hp hw
    rw [applyPuts_cons] at hp
    unfold lastVal at hw
    cases hlv : lastVal ops p.1 with
    | some w' =>
      rw [hlv] at hw
      injection hw with hw'
      exact hw' ▸ ih hp hlv
    | none =>
      rw [hlv] at hw
      by_cases hk : op.1 = p.1
      · rw [if_pos hk] at hw
        injection hw with hw'
        have hmem : p ∈ upsertReplace l op.1 op.2 :=
          mem_applyPuts_untouched (lastVal_eq_none hlv) hp rfl
        exact hw' ▸ snd_of_mem_upsertReplace hmem hk.symm
      · rw [if_neg hk] at hw
        cases hw

/-- The pending value update for one key induced by a write list. -/
def valUpd (ops : List (κ × ρ)) (k : κ) (v : ρ) : ρ :=
  (lastVal ops k).getD v

lemma lastVal_cons (op : κ × ρ) (ops : List (κ × ρ)) (k : κ) :
    lastVal (op :: ops) k
      = match lastVal ops k with
        | some w => some w
        | none => if op.1 = k then some op.2 else none := rfl

lemma valUpd_cons (op : κ × ρ) (ops : List (κ × ρ)) (k : κ) (v : ρ) :
    valUpd (op :: ops) k v = valUpd ops k (if op.1 = k then op.2 else v) := by
  unfold valUpd
  rw [lastVal_cons]
  cases hlv : lastVal ops k with
  | some w => simp
  | none =>
    by_cases hk : op.1 = k <;> simp [hk]

lemma applyPuts_all_present {ops : List (κ × ρ)} :
    ∀ {M : List (κ × ρ)}, (∀ op ∈ ops, containsKey M op.1 = true) →
      applyPuts M ops = M.map (fun p => (p.1, valUpd ops p.1 p.2)) := by
  induction ops with
  | nil =>
    intro M _
    simp [applyPuts, valUpd, lastVal]
  | cons op ops ih =>
    intro M hpres
    rw [applyPuts_cons]
    have hop : containsKey M op.1 = true := hpres op (List.mem_cons_self _ _)
    have hrepl : upsertReplace M op.1 op.2
        = M.map (fun p => if p.1 = op.1 then (op.1, op.2) else p) := by
      unfold upsertReplace
      rw [if_pos hop]
    rw [hrepl]
    have hpres2 : ∀ q ∈ ops,
        containsKey (M.map (fun p => if p.1 = op.1 then (op.1, op.2) else p)) q.1 = true := by
      intro q hq
      rw [containsKey_map_keyfix]
      exact hpres q (List.mem_cons_of_mem _ hq)
    rw [ih hpres2, List.map_map]
    apply List.map_congr_left
    intro p _
    by_cases hk : p.1 = op.1
    · simp [Function.comp, hk, valUpd_cons]
    · have : op.1 ≠ p.1 := fun h => hk h.symm
      simp [Function.comp, hk, valUpd_cons, this]

/-- Replaying the same list of upsert-replace writes is a no-op. -/
lemma applyPuts_idem (l : List (κ × ρ)) (ops : List (κ × ρ)) :
    applyPuts (applyPuts l ops) ops = applyPuts l ops := by
  rw [applyPuts_all_present (fun op hop => containsKey_applyPuts_of_mem hop)]
  have : ∀ p ∈ applyPuts l ops, (p.1, valUpd ops p.1 p.2) = p := by
    intro p hp
    unfold valUpd
    cases hlv : lastVal ops p.1 with
    | some w => simp [← snd_eq_lastVal hp hlv]
    | none => simp
  rw [List.map_congr_left this]
  simp

lemma containsKey_applyInserts_mono {l : List (κ × ρ)} {ops : List (κ × ρ)} {k : κ}
    (h : containsKey l k = true) : containsKey (applyInserts l ops) k = true := by
  induction ops generalizing l with
  | nil => exact h
  | cons op ops ih =>
    rw [applyInserts_cons]
    exact ih (by rw [containsKey_insertIfAbsent, h, Bool.true_or])

lemma containsKey_applyInserts_of_mem {l : List (κ × ρ)} {ops : List (κ × ρ)} {op : κ × ρ}
    (h : op ∈ ops) : containsKey (applyInserts l ops) op.1 = true := by
  induction ops generalizing l with
  | nil => cases h
  | cons op' ops ih =>
    rw [applyInserts_cons]
    rcases List.mem_cons.mp h with h1 | h1
    · subst h1
      exact containsKey_applyInserts_mono
        (by rw [containsKey_insertIfAbsent]; simp)
    · exact ih h1

lemma applyInserts_all_present {ops : List (κ × ρ)} :
    ∀ {M : List (κ × ρ)}, (∀ op ∈ ops, containsKey M op.1 = true) →
      applyInserts M ops = M := by
  induction ops with
  | nil => intro M _; rfl
  | cons op ops ih =>
    intro M hpres
    rw [applyInserts_cons,
      insertIfAbsent_of_containsKey op.2 (hpres op (List.mem_cons_self _ _))]
    exact ih (fun q hq => hpres q (List.mem_cons_of_mem _ hq))

/-- Replaying the same list of insert-if-absent writes is a no-op. -/
lemma applyInserts_idem (l : List (κ × ρ)) (ops : List (κ × ρ)) :
    applyInserts (applyInserts l ops) ops = applyInserts l ops :=
  applyInserts_all_present (fun _ hop => containsKey_applyInserts_of_mem hop)

/-- Map a function over the stored values of a collection, leaving ids fixed. -/
def mapVals (f : ρ → ρ2) (l : List (κ × ρ)) : List (κ × ρ2) :=
  l.map (fun p => (p.1, f p.2))

lemma containsKey_mapVals (f : ρ → ρ2) (l : List (κ × ρ)) (k : κ) :
    containsKey (mapVals f l) k = containsKey l k := by
  induction l with
  | nil => rfl
  | cons p l ih =>
    simp only [containsKey, mapVals, List.map_cons, List.any_cons] at ih ⊢
    rw [ih]

lemma upsertReplace_mapVals (f : ρ → ρ2) (l : List (κ × ρ)) (k : κ) (v : ρ) :
    upsertReplace (mapVals f l) k (f v) = mapVals f (upsertReplace l k v) := by
  unfold upsertReplace
  rw [containsKey_mapVals]
  by_cases h : containsKey l k
  · rw [if_pos h, if_pos h]
    unfold mapVals
    rw [List.map_map, List.map_map]
    apply List.map_congr_left
    intro p _
    by_cases hk : p.1 = k <;> simp [Function.comp, hk]
  · rw [if_neg h, if_neg h]
    simp [mapVals]

lemma applyPuts_mapVals (f : ρ → ρ2) (ops : List (κ × ρ)) :
    ∀ (l : List (κ × ρ)),
      applyPuts (mapVals f l) (mapVals f ops) = mapVals f (applyPuts l ops) := by
  induction ops with
  | nil => intro l; rfl
  | cons op ops ih =>
    intro l
    show applyPuts (upsertReplace (mapVals f l) op.1 (f op.2)) (mapVals f ops) = _
    rw [upsertReplace_mapVals, ih]
    rfl

end StoreGeneric

/-! ### Feed client data model

Shapes of the external odds feed consumed by the ingestion pipeline and the
analytics services, and the interface of `OddsApiService` as seen by its
callers. The feed client is modelled as a deterministic oracle: each method is
a pure function from its request parameters to the response the service
returned. -/

/-- One outcome object of the feed (name, optional participant fields, optional
numeric point/line, optional price). -/
structure FeedOutcome where
  name : Option String
  description : Option String
  participant : Option String
  player : Option String
  point : Option Rat
  price : Option Rat
  odds : Option Rat
deriving DecidableEq

/-- One market object of the feed. -/
structure FeedMarket where
  key : Option String
  outcomes : List FeedOutcome
deriving DecidableEq

/-- One bookmaker object of the feed. -/
structure FeedBookmaker where
  key : Option String
  title : Option String
  last_update : Option String
  markets : List FeedMarket
deriving DecidableEq

/-- One event object of the feed. Commence time is parsed to epoch ms. -/
structure FeedEvent where
  id : Option String
  commence_time : Option Nat
  home_team : Option String
  away_team : Option String
  bookmakers : List FeedBookmaker
deriving DecidableEq

/-- Parameters of `OddsApiService.getOdds`. -/
structure OddsRequestParams where
  sport : String
  regions : Option (List String)
  markets : Option (List String)
  oddsFormat : Option String
deriving DecidableEq

/-- Result of `OddsApiService.getOdds`. -/
structure OddsFeedResult where
  data : List FeedEvent
  remaining : Nat
  warning : Option String
deriving DecidableEq

/-- Result of `OddsApiService.getEvents`. -/
structure EventsFeedResult where
  data : List FeedEvent
  remaining : Nat
  warning : Option String
deriving DecidableEq

/-- Parameters of `OddsApiService.getEventOdds`. -/
structure EventOddsRequestParams where
  sport : String
  eventId : String
  regions : Option (List String)
  markets : Option (List String)
  oddsFormat : Option String
deriving DecidableEq

/-- Result of `OddsApiService.getEventOdds`. -/
structure EventOddsFeedResult where
  data : Option FeedEvent
  remaining : Nat
  warning : Option String
deriving DecidableEq

/-- One sport metadata object of `OddsApiService.getSports`. -/
structure SportMeta where
  key : String
  title : String
  group : String
deriving DecidableEq

/-- Result of `OddsApiService.getSports`. -/
structure SportsFeedResult where
  data : List SportMeta
  remaining : Nat
  warning : Option String
deriving DecidableEq

/-- The feed client as an oracle of its observable responses. -/
structure OddsApi where
  odds : OddsRequestParams → OddsFeedResult
  events : String → EventsFeedResult
  eventOdds : EventOddsRequestParams → EventOddsFeedResult
  sports : SportsFeedResult

/-- Warning text produced by every `OddsApiService` method when no upstream
credential is configured. -/
def notConfiguredWarning : String := "ODDS_API_KEY not configured"

/-- Behaviour of `OddsApiService` when `ODDS_API_KEY` is empty: every method
returns empty data, remaining 0 and the warning, without an upstream call. -/
def degradedOddsApi : OddsApi where
  odds := fun _ => { data := [], remaining := 0, warning := some notConfiguredWarning }
  events := fun _ => { data := [], remaining := 0, warning := some notConfiguredWarning }
  eventOdds := fun _ => { data := none, remaining := 0, warning := some notConfiguredWarning }
  sports := { data := [], remaining := 0, warning := some notConfiguredWarning }

/-! ### Ingestion pipeline (`OddsIngestionService.refreshOdds`)

The store rows carry exactly the fields written by the service's `updateOne`
calls. The imperative per-event/bookmaker/market/outcome loops are embedded as
per-collection write lists in source iteration order; this is sound because the
loop bodies write to disjoint collections and the state of one collection is
determined by its own writes. The service captures `Date.now()` once per batch
as `batchEpochMs`; the embedding uses that same instant for the
`commence_time` fallback of the event row. -/

/-- Fields written to the `Sport` collection (`$setOnInsert`). -/
structure SportRow where
  id : Nat
  name : String
  key : String
deriving DecidableEq

/-- Fields written to the `Team` collection (`$setOnInsert`). -/
structure TeamRow where
  id : String
  sport_id : Nat
  name : String
  abbreviation : String
  external_ref : String
deriving DecidableEq

/-- Fields written to the `SportEvent` collection (`$set`). -/
structure SportEventRow where
  id : String
  sport_id : Nat
  league_code : String
  home_team_id : String
  away_team_id : String
  starts_at : Nat
  status : String
  external_ref : String
deriving DecidableEq

/-- Fields written to the `Sportsbook` collection (`$set`). -/
structure SportsbookRow where
  id : String
  name : String
  code : String
  base_url : String
deriving DecidableEq

/-- Fields written to the `Market` collection (`$set`), metadata flattened. -/
structure MarketRow where
  id : String
  sport_event_id : String
  key : String
  label : String
  metadata_bookmaker_key : String
  metadata_last_update : Option String
deriving DecidableEq

/-- Fields written to the `MarketSelection` collection (`$set`). -/
structure MarketSelectionRow where
  id : String
  market_id : String
  label : String
  player_id : String
  line_value : Rat
  side : String
deriving DecidableEq

/-- Fields written to the `OddsSnapshot` collection (`$set`). -/
structure OddsSnapshotRow where
  id : Nat
  sportsbook_id : String
  selection_id : String
  odds_format : String
  odds_value : Rat
  implied_prob : Rat
  fetched_at : Nat
deriving DecidableEq

/-- An archived snapshot: the snapshot fields plus the archive timestamp. -/
structure OddsSnapshotArchiveRow where
  snap : OddsSnapshotRow
  archived_at : Nat
deriving DecidableEq

/-- The document store of the ingestion pipeline. -/
structure Store where
  sports : List (Nat × SportRow)
  teams : List (String × TeamRow)
  sportEvents : List (String × SportEventRow)
  sportsbooks : List (String × SportsbookRow)
  markets : List (String × MarketRow)
  selections : List (String × MarketSelectionRow)
  snapshots : List (Nat × OddsSnapshotRow)
  archive : List (Nat × OddsSnapshotArchiveRow)
deriving DecidableEq

/-- The empty store. -/
def emptyStore : Store :=
  { sports := [], teams := [], sportEvents := [], sportsbooks := [], markets := [],
    selections := [], snapshots := [], archive := [] }

/-- Team abbreviation: `name.slice(0, 3).toUpperCase() || "UNK"`. -/
def teamAbbrev (name : String) : String :=
  let sliced := String.mk ((name.data.take 3).map Char.toUpper)
  if sliced = "" then "UNK" else sliced

/-- The `Team` row written for one team name. -/
def teamRowOf (sportId : Nat) (name : String) : TeamRow :=
  { id := makeTeamId sportId name, sport_id := sportId, name := name,
    abbreviation := teamAbbrev name, external_ref := name }

/-- The two team insert-if-absent writes of one event (home, then away). -/
def teamOpsOfEvent (sportId : Nat) (ev : FeedEvent) : List (String × TeamRow) :=
  let homeName := jsOrStr ev.home_team ""
  let awayName := jsOrStr ev.away_team ""
  [(makeTeamId sportId homeName, teamRowOf sportId homeName),
   (makeTeamId sportId awayName, teamRowOf sportId awayName)]

/-- All team writes of the batch in iteration order. -/
def teamOps (sportId : Nat) (events : List FeedEvent) : List (String × TeamRow) :=
  events.flatMap (teamOpsOfEvent sportId)

/-- The `SportEvent` row written for one event; a falsy `commence_time` falls
back to the batch instant (`Date.now()` in the source). -/
def sportEventRowOf (sportKey : String) (sportId : Nat) (batchEpochMs : Nat)
    (ev : FeedEvent) : SportEventRow :=
  let externalEventId := jsOrStr ev.id ""
  { id := makeEventId externalEventId, sport_id := sportId, league_code := sportKey,
    home_team_id := makeTeamId sportId (jsOrStr ev.home_team ""),
    away_team_id := makeTeamId sportId (jsOrStr ev.away_team ""),
    starts_at := ev.commence_time.getD batchEpochMs,
    status := "scheduled", external_ref := externalEventId }

/-- All `SportEvent` writes of the batch. -/
def sportEventOps (sportKey : String) (sportId : Nat) (batchEpochMs : Nat)
    (events : List FeedEvent) : List (String × SportEventRow) :=
  events.map (fun ev =>
    (makeEventId (jsOrStr ev.id ""), sportEventRowOf sportKey sportId batchEpochMs ev))

/-- The bookmaker key: `String(bm.key || bm.title || "unknown")`. -/
def bookKeyOf (bm : FeedBookmaker) : String :=
  jsOrStr bm.key (jsOrStr bm.title "unknown")

/-- The `Sportsbook` row written for one bookmaker. -/
def sportsbookRowOf (bm : FeedBookmaker) : SportsbookRow :=
  let bookKey := bookKeyOf bm
  { id := makeSportsbookId bookKey, name := jsOrStr bm.title bookKey,
    code := bookKey, base_url := "" }

/-- All `Sportsbook` writes of the batch. -/
def sportsbookOps (events : List FeedEvent) : List (String × SportsbookRow) :=
  events.flatMap (fun ev =>
    ev.bookmakers.map (fun bm => (makeSportsbookId (bookKeyOf bm), sportsbookRowOf bm)))

/-- The `Market` row written for one market of one bookmaker of one event. -/
def marketRowOf (eventId bookId : String) (bm : FeedBookmaker) (mk : FeedMarket) :
    MarketRow :=
  let marketKey := jsOrStr mk.key ""
  { id := makeMarketId eventId bookId marketKey, sport_event_id := eventId,
    key := marketKey, label := marketKey,
    metadata_bookmaker_key := bookKeyOf bm, metadata_last_update := bm.last_update }

/-- All `Market` writes of the batch. -/
def marketOps (events : List FeedEvent) : List (String × MarketRow) :=
  events.flatMap (fun ev =>
    let eventId := makeEventId (jsOrStr ev.id "")
    ev.bookmakers.flatMap (fun bm =>
      let bookId := makeSportsbookId (bookKeyOf bm)
      bm.markets.map (fun mk =>
        (makeMarketId eventId bookId (jsOrStr mk.key ""), marketRowOf eventId bookId bm mk))))

/-- The outcome label of the ingestion loop:
`String(out.name || out.description || "outcome")`. -/
def outcomeNameOf (o : FeedOutcome) : String :=
  jsOrStr o.name (jsOrStr o.description "outcome")

/-- The `MarketSelection` row written for one outcome. -/
def selectionRowOf (marketId : String) (o : FeedOutcome) : MarketSelectionRow :=
  let outcomeName := outcomeNameOf o
  { id := makeSelectionId marketId outcomeName o.point, market_id := marketId,
    label := outcomeName, player_id := "", line_value := o.point.getD 0,
    side := outcomeName }

/-- All `MarketSelection` writes of the batch. -/
def selectionOps (events : List FeedEvent) : List (String × MarketSelectionRow) :=
  events.flatMap (fun ev =>
    let eventId := makeEventId (jsOrStr ev.id "")
    ev.bookmakers.flatMap (fun bm =>
      let bookId := makeSportsbookId (bookKeyOf bm)
      bm.markets.flatMap (fun mk =>
        let marketId := makeMarketId eventId bookId (jsOrStr mk.key "")
        mk.outcomes.map (fun o =>
          (makeSelectionId marketId (outcomeNameOf o) o.point, selectionRowOf marketId o)))))

/-- The timestamp-independent part of one snapshot write, in iteration order.
The price is `Number(out.price ?? out.odds ?? 0)`. -/
structure SnapBody where
  sportsbook_id : String
  selection_id : String
  odds_value : Rat
deriving DecidableEq

/-- The flattened list of snapshot bodies of a batch; the running
`snapshotIndex` of the source is the position in this list. -/
def snapBodies (events : List FeedEvent) : List SnapBody :=
  events.flatMap (fun ev =>
    let eventId := makeEventId (jsOrStr ev.id "")
    ev.bookmakers.flatMap (fun bm =>
      let bookId := makeSportsbookId (bookKeyOf bm)
      bm.markets.flatMap (fun mk =>
        let marketId := makeMarketId eventId bookId (jsOrStr mk.key "")
        mk.outcomes.map (fun o =>
          { sportsbook_id := bookId,
            selection_id := makeSelectionId marketId (outcomeNameOf o) o.point,
            odds_value := (o.price.orElse (fun _ => o.odds)).getD 0 }))))

/-- The `OddsSnapshot` row written for the body at sequence index `i`; the
odds format and implied probability follow `(oddsFormat || "american") ===
"decimal"`. -/
def snapshotRowOf (oddsFormat : Option String) (batchEpochMs i : Nat)
    (b : SnapBody) : OddsSnapshotRow :=
  let isDec := oddsFormat.getD "american" = "decimal"
  { id := makeOddsSnapshotId batchEpochMs i,
    sportsbook_id := b.sportsbook_id, selection_id := b.selection_id,
    odds_format := if isDec then "decimal" else "american",
    odds_value := b.odds_value,
    implied_prob := if isDec then decimalToImpliedProb b.odds_value
      else americanToImpliedProb b.odds_value,
    fetched_at := batchEpochMs }

/-- All `OddsSnapshot` writes of the batch. -/
def snapshotOps (oddsFormat : Option String) (batchEpochMs : Nat)
    (events : List FeedEvent) : List (Nat × OddsSnapshotRow) :=
  (snapBodies events).enum.map (fun p =>
    (makeOddsSnapshotId batchEpochMs p.1, snapshotRowOf oddsFormat batchEpochMs p.1 p.2))

/-- Parameters of `refreshOdds`. -/
structure RefreshParams where
  sportKey : String
  regions : Option (List String)
  markets : Option (List String)
  oddsFormat : Option String
deriving DecidableEq

/-- Return value of `refreshOdds`. The source's return objects carry only
`ingestedSnapshots` and `remaining`; the absent `warning` key is modelled as a
field that is `none` in every return, so that claims about a surfaced warning
are statable. -/
structure RefreshResult where
  ingestedSnapshots : Nat
  remaining : Nat
  warning : Option String
deriving DecidableEq

/-- The `getOdds` request built by `refreshOdds` (optional parameters passed
through unchanged). -/
def refreshRequest (p : RefreshParams) : OddsRequestParams :=
  { sport := p.sportKey, regions := p.regions, markets := p.markets,
    oddsFormat := p.oddsFormat }

/-- The `Sport` row inserted if absent at the start of every refresh. -/
def sportRowOf (sportKey : String) : SportRow :=
  { id := makeSportIdFromKey sportKey, name := sportKey, key := sportKey }

/-- `OddsIngestionService.refreshOdds`: insert-if-absent the sport, call the
feed, stop with zero snapshots on a warning, otherwise apply all entity writes
and append one snapshot per outcome. -/
def refreshOdds (api : OddsApi) (p : RefreshParams) (batchEpochMs : Nat)
    (st : Store) : Store × RefreshResult :=
  let sportId := makeSportIdFromKey p.sportKey
  let st1 := { st with sports := insertIfAbsent st.sports sportId (sportRowOf p.sportKey) }
  let res := api.odds (refreshRequest p)
  match res.warning with
  | some _ => (st1, { ingestedSnapshots := 0, remaining := res.remaining, warning := none })
  | none =>
    let events := res.data
    ({ st1 with
        teams := applyInserts st1.teams (teamOps sportId events),
        sportEvents := applyPuts st1.sportEvents (sportEventOps p.sportKey sportId batchEpochMs events),
        sportsbooks := applyPuts st1.sportsbooks (sportsbookOps events),
        markets := applyPuts st1.markets (marketOps events),
        selections := applyPuts st1.selections (selectionOps events),
        snapshots := applyPuts st1.snapshots (snapshotOps p.oddsFormat batchEpochMs events) },
     { ingestedSnapshots := (snapBodies events).length, remaining := res.remaining,
       warning := none })

/-- Sample feed data used by concrete witnesses. -/
def sampleOutcomeA : FeedOutcome :=
  { name := some "Alpha", description := none, participant := none, player := none,
    point := none, price := some 150, odds := none }

/-- Second sample outcome. -/
def sampleOutcomeB : FeedOutcome :=
  { name := some "Beta", description := none, participant := none, player := none,
    point := none, price := some (-120), odds := none }

/-- Sample h2h market quoting both outcomes. -/
def sampleMarketH2h : FeedMarket :=
  { key := some "h2h", outcomes := [sampleOutcomeA, sampleOutcomeB] }

/-- Sample bookmaker. -/
def sampleBookmaker : FeedBookmaker :=
  { key := some "bookie", title := some "Bookie", last_update := some "lu",
    markets := [sampleMarketH2h] }

/-- Sample event. -/
def sampleEvent : FeedEvent :=
  { id := some "ev1", commence_time := some 1700000000000,
    home_team := some "Alpha", away_team := some "Beta",
    bookmakers := [sampleBookmaker] }

/-- Feed oracle returning the sample event with no warning. -/
def sampleOddsApi : OddsApi where
  odds := fun _ => { data := [sampleEvent], remaining := 42, warning := none }
  events := fun _ => { data := [sampleEvent], remaining := 42, warning := none }
  eventOdds := fun _ => { data := some sampleEvent, remaining := 42, warning := none }
  sports := { data := [], remaining := 42, warning := none }

/-- The store after only the Sport insert-if-absent of a refresh for the given
sport key — the single write `refreshOdds` performs before calling the feed. -/
def sportInsertedStore (st : Store) (sportKey : String) : Store :=
  { st with
      sports := insertIfAbsent st.sports (makeSportIdFromKey sportKey) (sportRowOf sportKey) }

/-- C1 (amended): when the feed call reports a warning, `refreshOdds` stops
after the Sport insert-if-absent — every other collection is untouched — and
returns zero ingested snapshots and the feed's remaining counter; the warning
itself is logged but not part of the returned value. -/
theorem refresh_degraded_c1 (api : OddsApi) (p : RefreshParams) (batchEpochMs : Nat)
    (st : Store) (w : String)
    (hw : (api.odds (refreshRequest p)).warning = some w) :
    refreshOdds api p batchEpochMs st
      = (sportInsertedStore st p.sportKey,
         { ingestedSnapshots := 0, remaining := (api.odds (refreshRequest p)).remaining,
           warning := none }) := by
  simp only [refreshOdds, hw, sportInsertedStore]

/-- Witness for C1: the degraded feed oracle at a concrete sport key and store. -/
theorem refresh_degraded_c1_witness :
    refreshOdds degradedOddsApi ⟨"basketball_nba", none, none, none⟩ 1700000000000 emptyStore
      = (sportInsertedStore emptyStore "basketball_nba",
         { ingestedSnapshots := 0, remaining := 0, warning := none }) :=
  refresh_degraded_c1 degradedOddsApi ⟨"basketball_nba", none, none, none⟩
    1700000000000 emptyStore notConfiguredWarning rfl

/-- Counterexample to C1 as stated: in degraded mode the feed reports the
warning, but the value returned by `refreshOdds` carries no warning — the
claim that the warning is returned together with the zero count fails. -/
theorem refresh_degraded_counterexample_c1 :
    (refreshOdds degradedOddsApi ⟨"basketball_nba", none, none, none⟩ 1700000000000
        emptyStore).2.warning = none ∧
    (degradedOddsApi.odds (refreshRequest ⟨"basketball_nba", none, none, none⟩)).warning
      = some notConfiguredWarning := ⟨rfl, rfl⟩

lemma snapshotOps_ids (oddsFormat : Option String) (t : Nat) (events : List FeedEvent) :
    (snapshotOps oddsFormat t events).map Prod.fst
      = (List.range (snapBodies events).length).map (makeOddsSnapshotId t) := by
  unfold snapshotOps
  rw [List.map_map, ← List.enum_map_fst (snapBodies events), List.map_map]
  rfl

lemma makeOddsSnapshotId_inj (t : Nat) : Function.Injective (makeOddsSnapshotId t) := by
  intro i j h
  unfold makeOddsSnapshotId at h
  omega

lemma snapshotOps_ids_nodup (oddsFormat : Option String) (t : Nat)
    (events : List FeedEvent) :
    ((snapshotOps oddsFormat t events).map Prod.fst).Nodup := by
  rw [snapshotOps_ids]
  exact (List.nodup_range _).map (makeOddsSnapshotId_inj t)

lemma snapshotOps_ids_disjoint {oddsFormat1 oddsFormat2 : Option String} {t1 t2 : Nat}
    {events1 events2 : List FeedEvent} (hne : t1 ≠ t2)
    (h1 : (snapBodies events1).length ≤ 1000) (h2 : (snapBodies events2).length ≤ 1000) :
    ∀ a ∈ (snapshotOps oddsFormat1 t1 events1).map Prod.fst,
      a ∉ (snapshotOps oddsFormat2 t2 events2).map Prod.fst := by
  rw [snapshotOps_ids, snapshotOps_ids]
  intro a ha hb
  obtain ⟨i, hi, rfl⟩ := List.mem_map.mp ha
  obtain ⟨j, hj, hij⟩ := List.mem_map.mp hb
  rw [List.mem_range] at hi hj
  unfold makeOddsSnapshotId at hij
  omega

/-- C8: the snapshot ids of one ingestion batch, `batchEpochMs * 1000 + index`
with zero-based sequence indices, are pairwise distinct, and ids of two batches
with different batch timestamps cannot collide while each batch's sequence
indices stay below 1000. -/
theorem snapshot_ids_c8 (oddsFormat : Option String) (t : Nat)
    (events : List FeedEvent) (t1 t2 i j : Nat)
    (hne : t1 ≠ t2) (hi : i < 1000) (hj : j < 1000) :
    ((snapshotOps oddsFormat t events).map Prod.fst).Nodup ∧
    makeOddsSnapshotId t1 i ≠ makeOddsSnapshotId t2 j := by
  refine ⟨snapshotOps_ids_nodup oddsFormat t events, ?_⟩
  unfold makeOddsSnapshotId
  omega

/-- Witness for C8 at a concrete batch and two concrete batch timestamps. -/
theorem snapshot_ids_c8_witness :
    ((snapshotOps none 1700000000000 [sampleEvent]).map Prod.fst).Nodup ∧
    makeOddsSnapshotId 1700000000000 0 ≠ makeOddsSnapshotId 1700000000001 999 :=
  snapshot_ids_c8 none 1700000000000 [sampleEvent] 1700000000000 1700000000001 0 999
    (by decide) (by decide) (by decide)

/-- Erase the only timestamp field of a `SportEvent` row (`starts_at`, which
falls back to the batch instant when the feed omits `commence_time`); claim C2
compares rows with timestamps ignored. -/
def eraseStartsAt (r : SportEventRow) : SportEventRow :=
  { r with starts_at := 0 }

lemma sportEventOps_erase (sportKey : String) (sportId t1 t2 : Nat)
    (events : List FeedEvent) :
    mapVals eraseStartsAt (sportEventOps sportKey sportId t1 events)
      = mapVals eraseStartsAt (sportEventOps sportKey sportId t2 events) := by
  unfold mapVals sportEventOps
  rw [List.map_map, List.map_map]
  apply List.map_congr_left
  intro ev _
  simp [Function.comp, sportEventRowOf, eraseStartsAt]

lemma refreshOdds_fst_of_no_warning (api : OddsApi) (p : RefreshParams) (t : Nat)
    (st : Store) (hw : (api.odds (refreshRequest p)).warning = none) :
    (refreshOdds api p t st).1
      = { sports := insertIfAbsent st.sports (makeSportIdFromKey p.sportKey)
            (sportRowOf p.sportKey),
          teams := applyInserts st.teams
            (teamOps (makeSportIdFromKey p.sportKey) (api.odds (refreshRequest p)).data),
          sportEvents := applyPuts st.sportEvents
            (sportEventOps p.sportKey (makeSportIdFromKey p.sportKey) t
              (api.odds (refreshRequest p)).data),
          sportsbooks := applyPuts st.sportsbooks
            (sportsbookOps (api.odds (refreshRequest p)).data),
          markets := applyPuts st.markets (marketOps (api.odds (refreshRequest p)).data),
          selections := applyPuts st.selections
            (selectionOps (api.odds (refreshRequest p)).data),
          snapshots := applyPuts st.snapshots
            (snapshotOps p.oddsFormat t (api.odds (refreshRequest p)).data),
          archive := st.archive } := by
  simp only [refreshOdds, hw]

lemma refreshOdds_snd_of_no_warning (api : OddsApi) (p : RefreshParams) (t : Nat)
    (st : Store) (hw : (api.odds (refreshRequest p)).warning = none) :
    (refreshOdds api p t st).2
      = { ingestedSnapshots := (snapBodies (api.odds (refreshRequest p)).data).length,
          remaining := (api.odds (refreshRequest p)).remaining, warning := none } := by
  simp only [refreshOdds, hw]

/-- C2: running `refreshOdds` twice against identical feed output (the oracle
returns the same response to the same request) leaves every Sport, Team,
SportEvent, Sportsbook, Market and MarketSelection identifier and row exactly
as after the first run — SportEvent rows compared with the `starts_at`
timestamp erased — ingests the same snapshot count, and the snapshot ids of
each run are pairwise distinct and (for distinct batch timestamps and at most
1000 snapshots per batch) disjoint from the other run's ids. -/
theorem refresh_idempotent_c2 (api : OddsApi) (p : RefreshParams) (t1 t2 : Nat)
    (st : Store)
    (hw : (api.odds (refreshRequest p)).warning = none) (hne : t1 ≠ t2)
    (hcount : (snapBodies (api.odds (refreshRequest p)).data).length ≤ 1000) :
    (refreshOdds api p t2 (refreshOdds api p t1 st).1).1.sports
        = (refreshOdds api p t1 st).1.sports ∧
    (refreshOdds api p t2 (refreshOdds api p t1 st).1).1.teams
        = (refreshOdds api p t1 st).1.teams ∧
    mapVals eraseStartsAt (refreshOdds api p t2 (refreshOdds api p t1 st).1).1.sportEvents
        = mapVals eraseStartsAt (refreshOdds api p t1 st).1.sportEvents ∧
    (refreshOdds api p t2 (refreshOdds api p t1 st).1).1.sportsbooks
        = (refreshOdds api p t1 st).1.sportsbooks ∧
    (refreshOdds api p t2 (refreshOdds api p t1 st).1).1.markets
        = (refreshOdds api p t1 st).1.markets ∧
    (refreshOdds api p t2 (refreshOdds api p t1 st).1).1.selections
        = (refreshOdds api p t1 st).1.selections ∧
    (refreshOdds api p t2 (refreshOdds api p t1 st).1).2.ingestedSnapshots
        = (refreshOdds api p t1 st).2.ingestedSnapshots ∧
    ((snapshotOps p.oddsFormat t1 (api.odds (refreshRequest p)).data).map Prod.fst).Nodup ∧
    ((snapshotOps p.oddsFormat t2 (api.odds (refreshRequest p)).data).map Prod.fst).Nodup ∧
    (∀ a ∈ (snapshotOps p.oddsFormat t1 (api.odds (refreshRequest p)).data).map Prod.fst,
        a ∉ (snapshotOps p.oddsFormat t2 (api.odds (refreshRequest p)).data).map Prod.fst) := by
  have h1 := refreshOdds_fst_of_no_warning api p t1 st hw
  have h2 := refreshOdds_fst_of_no_warning api p t2 (refreshOdds api p t1 st).1 hw
  refine ⟨?_, ?_, ?_, ?_, ?_, ?_, ?_, ?_, ?_, ?_⟩
  · rw [h2, h1]
    apply insertIfAbsent_of_containsKey
    rw [containsKey_insertIfAbsent]
    simp
  · rw [h2, h1]
    exact applyInserts_idem _ _
  · rw [h2]
    show mapVals eraseStartsAt (applyPuts _ _) = _
    rw [← applyPuts_mapVals,
      sportEventOps_erase p.sportKey (makeSportIdFromKey p.sportKey) t2 t1, h1]
    show applyPuts (mapVals eraseStartsAt (applyPuts _ _)) _ = _
    rw [← applyPuts_mapVals]
    exact applyPuts_idem _ _
  · rw [h2, h1]
    exact applyPuts_idem _ _
  · rw [h2, h1]
    exact applyPuts_idem _ _
  · rw [h2, h1]
    exact applyPuts_idem _ _
  · rw [refreshOdds_snd_of_no_warning api p t2 _ hw,
      refreshOdds_snd_of_no_warning api p t1 st hw]
  · exact snapshotOps_ids_nodup _ _ _
  · exact snapshotOps_ids_nodup _ _ _
  · exact snapshotOps_ids_disjoint hne hcount hcount

/-- Witness for C2: the sample feed oracle, a one-event batch and two distinct
batch timestamps. -/
theorem refresh_idempotent_c2_witness :
    (refreshOdds sampleOddsApi ⟨"nba", none, none, none⟩ 2
          (refreshOdds sampleOddsApi ⟨"nba", none, none, none⟩ 1 emptyStore).1).1.sports
        = (refreshOdds sampleOddsApi ⟨"nba", none, none, none⟩ 1 emptyStore).1.sports ∧
    (refreshOdds sampleOddsApi ⟨"nba", none, none, none⟩ 2
          (refreshOdds sampleOddsApi ⟨"nba", none, none, none⟩ 1 emptyStore).1).1.teams
        = (refreshOdds sampleOddsApi ⟨"nba", none, none, none⟩ 1 emptyStore).1.teams ∧
    mapVals eraseStartsAt
        (refreshOdds sampleOddsApi ⟨"nba", none, none, none⟩ 2
          (refreshOdds sampleOddsApi ⟨"nba", none, none, none⟩ 1 emptyStore).1).1.sportEvents
        = mapVals eraseStartsAt
          (refreshOdds sampleOddsApi ⟨"nba", none, none, none⟩ 1 emptyStore).1.sportEvents ∧
    (refreshOdds sampleOddsApi ⟨"nba", none, none, none⟩ 2
          (refreshOdds sampleOddsApi ⟨"nba", none, none, none⟩ 1 emptyStore).1).1.sportsbooks
        = (refreshOdds sampleOddsApi ⟨"nba", none, none, none⟩ 1 emptyStore).1.sportsbooks ∧
    (refreshOdds sampleOddsApi ⟨"nba", none, none, none⟩ 2
          (refreshOdds sampleOddsApi ⟨"nba", none, none, none⟩ 1 emptyStore).1).1.markets
        = (refreshOdds sampleOddsApi ⟨"nba", none, none, none⟩ 1 emptyStore).1.markets ∧
    (refreshOdds sampleOddsApi ⟨"nba", none, none, none⟩ 2
          (refreshOdds sampleOddsApi ⟨"nba", none, none, none⟩ 1 emptyStore).1).1.selections
        = (refreshOdds sampleOddsApi ⟨"nba", none, none, none⟩ 1 emptyStore).1.selections ∧
    (refreshOdds sampleOddsApi ⟨"nba", none, none, none⟩ 2
          (refreshOdds sampleOddsApi ⟨"nba", none, none, none⟩ 1 emptyStore).1).2.ingestedSnapshots
        = (refreshOdds sampleOddsApi ⟨"nba", none, none, none⟩ 1 emptyStore).2.ingestedSnapshots ∧
    ((snapshotOps none 1 (sampleOddsApi.odds (refreshRequest ⟨"nba", none, none, none⟩)).data).map
        Prod.fst).Nodup ∧
    ((snapshotOps none 2 (sampleOddsApi.odds (refreshRequest ⟨"nba", none, none, none⟩)).data).map
        Prod.fst).Nodup ∧
    (∀ a ∈ (snapshotOps none 1
          (sampleOddsApi.odds (refreshRequest ⟨"nba", none, none, none⟩)).data).map Prod.fst,
        a ∉ (snapshotOps none 2
          (sampleOddsApi.odds (refreshRequest ⟨"nba", none, none, none⟩)).data).map Prod.fst) :=
  refresh_idempotent_c2 sampleOddsApi ⟨"nba", none, none, none⟩ 1 2 emptyStore rfl
    (by decide) (by decide)

/-! ### Arbitrage service (`ArbitrageService.getArbitrage`)

The market guard runs before any feed interaction: `arbitrageFirstStep` is a
function of the parameters alone, and only its `fetch` outcome carries the
request subsequently issued to the feed client. -/

/-- One leg of an arbitrage opportunity. -/
structure ArbitrageLeg where
  outcome : String
  bestBookmaker : Option String
  bestPrice : Option Rat
  decimalOdds : Option Rat
  impliedProbability : Option Rat
deriving DecidableEq

/-- One detected arbitrage opportunity. -/
structure ArbitrageOpportunity where
  eventId : Option String
  commenceTime : Option Nat
  homeTeam : Option String
  awayTeam : Option String
  sportKey : String
  market : String
  impliedSum : Rat
  edgePercent : Rat
  legs : List ArbitrageLeg
deriving DecidableEq

/-- Result of `getArbitrage`. -/
structure ArbitrageResult where
  data : List ArbitrageOpportunity
  remaining : Nat
  warning : Option String
deriving DecidableEq

/-- The error thrown for a non-h2h market (status, machine code, message). -/
structure ArbError where
  status : Nat
  code : String
  message : String
deriving DecidableEq

/-- Parameters of `getArbitrage`; `top` is a caller-supplied number defaulting
to 50. -/
structure ArbParams where
  sport : String
  market : String
  regions : Option (List String)
  oddsFormat : Option String
  top : Option Int
deriving DecidableEq

/-- Per-outcome best record tracked while scanning bookmakers. -/
structure BestEntry where
  bookmaker : Option String
  price : Rat
deriving DecidableEq

/-- Update of the per-outcome best record: store when the outcome is new
(appended, JS object insertion order), replace in place when the new price is
strictly higher. -/
def bestInsert (best : List (String × BestEntry)) (name : String) (e : BestEntry) :
    List (String × BestEntry) :=
  match best.lookup name with
  | none => best ++ [(name, e)]
  | some existing =>
    if existing.price < e.price then
      best.map (fun p => if p.1 = name then (name, e) else p)
    else best

/-- Fold one outcome into the best record: skipped when the trimmed name is
empty or the price is absent (non-finiteness cannot occur over `Rat`). -/
def collectBestOutcome (bookmakerKey : Option String)
    (b : List (String × BestEntry)) (o : FeedOutcome) : List (String × BestEntry) :=
  let outcomeName := trimStr (jsOrStr o.name "")
  match o.price with
  | none => b
  | some price =>
    if outcomeName = "" then b else bestInsert b outcomeName ⟨bookmakerKey, price⟩

/-- Fold one bookmaker into the best record: only the market matching the
requested key contributes. -/
def collectBestBookmaker (market : String) (b : List (String × BestEntry))
    (bm : FeedBookmaker) : List (String × BestEntry) :=
  match bm.markets.find? (fun m => decide (m.key = some market)) with
  | none => b
  | some mk => mk.outcomes.foldl (collectBestOutcome bm.key) b

/-- The per-event best price per outcome name, in insertion order. -/
def collectBest (market : String) (ev : FeedEvent) : List (String × BestEntry) :=
  ev.bookmakers.foldl (collectBestBookmaker market) []

/-- Build one leg from a best entry; the implied probability is `1/decimal`
when the decimal odds are positive and absent (`NaN` in the source) otherwise. -/
def legOf (p : String × BestEntry) : ArbitrageLeg :=
  let dec := americanToDecimal p.2.price
  { outcome := p.1, bestBookmaker := p.2.bookmaker, bestPrice := some p.2.price,
    decimalOdds := some dec,
    impliedProbability := if 0 < dec then some (1 / dec) else none }

/-- Sum of the legs' implied probabilities, absent legs counted as 0. -/
def impliedSumOfLegs (legs : List ArbitrageLeg) : Rat :=
  legs.foldl (fun acc l => acc + l.impliedProbability.getD 0) 0

/-- Per-event arbitrage detection: exactly two distinct best outcome names,
positive finite implied sum, an opportunity exactly when the sum is below 1. -/
def eventOpportunity (sport market : String) (ev : FeedEvent) :
    Option ArbitrageOpportunity :=
  if (collectBest market ev).length = 2 then
    if impliedSumOfLegs ((collectBest market ev).map legOf) ≤ 0 then none
    else if impliedSumOfLegs ((collectBest market ev).map legOf) < 1 then
      some { eventId := ev.id, commenceTime := ev.commence_time,
             homeTeam := ev.home_team, awayTeam := ev.away_team,
             sportKey := sport, market := market,
             impliedSum := impliedSumOfLegs ((collectBest market ev).map legOf),
             edgePercent := (1 / impliedSumOfLegs ((collectBest market ev).map legOf) - 1)
               * 100,
             legs := (collectBest market ev).map legOf }
    else none
  else none

/-- The source's `out.sort((a, b) => b.edgePercent - a.edgePercent)`: a stable
sort placing higher edges first. -/
def sortByEdgeDesc (l : List ArbitrageOpportunity) : List ArbitrageOpportunity :=
  l.mergeSort (fun a b => decide (b.edgePercent ≤ a.edgePercent))

/-- The result-size limit: `Math.max(1, Math.min(200, top))` with default 50. -/
def arbLimit (top : Option Int) : Int :=
  max 1 (min 200 (top.getD 50))

/-- The post-fetch computation of `getArbitrage`: pass the warning through with
empty data, otherwise detect, sort and truncate. -/
def arbitrageCompute (p : ArbParams) (res : OddsFeedResult) : ArbitrageResult :=
  match res.warning with
  | some w => { data := [], remaining := res.remaining, warning := some w }
  | none =>
    let out := res.data.filterMap (eventOpportunity p.sport p.market)
    { data := (sortByEdgeDesc out).take (arbLimit p.top).toNat,
      remaining := res.remaining, warning := none }

/-- The `getOdds` request issued by `getArbitrage` after validation. -/
def arbRequest (p : ArbParams) : OddsRequestParams :=
  { sport := p.sport, regions := some (p.regions.getD ["us"]),
    markets := some [p.market], oddsFormat := some (p.oddsFormat.getD "american") }

/-- What `getArbitrage` does before touching the feed: reject a non-h2h market
or produce the request to issue. -/
inductive ArbFirstStep where
  | unsupportedMarket (status : Nat) (code : String) (message : String)
  | fetch (req : OddsRequestParams)
deriving DecidableEq

/-- The pre-fetch validation of `getArbitrage`. -/
def arbitrageFirstStep (p : ArbParams) : ArbFirstStep :=
  if p.market ≠ "h2h" then
    .unsupportedMarket 422 "UNSUPPORTED_MARKET"
      ("UNSUPPORTED_MARKET: arbitrage currently supports market=h2h only (received: "
        ++ p.market ++ ")")
  else .fetch (arbRequest p)

/-- `ArbitrageService.getArbitrage`. -/
def getArbitrage (api : OddsApi) (p : ArbParams) : Except ArbError ArbitrageResult :=
  match arbitrageFirstStep p with
  | .unsupportedMarket s c m => .error ⟨s, c, m⟩
  | .fetch req => .ok (arbitrageCompute p (api.odds req))

/-- C3: a market other than h2h is rejected with status 422 and code
UNSUPPORTED_MARKET by the pre-fetch step — which, by construction, involves no
feed interaction — and `getArbitrage` propagates exactly that error. -/
theorem arbitrage_unsupported_market_c3 (api : OddsApi) (p : ArbParams)
    (hm : p.market ≠ "h2h") :
    arbitrageFirstStep p
      = .unsupportedMarket 422 "UNSUPPORTED_MARKET"
          ("UNSUPPORTED_MARKET: arbitrage currently supports market=h2h only (received: "
            ++ p.market ++ ")") ∧
    getArbitrage api p
      = .error ⟨422, "UNSUPPORTED_MARKET",
          "UNSUPPORTED_MARKET: arbitrage currently supports market=h2h only (received: "
            ++ p.market ++ ")"⟩ := by
  have h1 : arbitrageFirstStep p
      = .unsupportedMarket 422 "UNSUPPORTED_MARKET"
          ("UNSUPPORTED_MARKET: arbitrage currently supports market=h2h only (received: "
            ++ p.market ++ ")") := by
    unfold arbitrageFirstStep
    rw [if_pos hm]
  refine ⟨h1, ?_⟩
  unfold getArbitrage
  rw [h1]

/-- Witness for C3 at the concrete market "totals". -/
theorem arbitrage_unsupported_market_c3_witness :
    arbitrageFirstStep ⟨"basketball_nba", "totals", none, none, none⟩
      = .unsupportedMarket 422 "UNSUPPORTED_MARKET"
          ("UNSUPPORTED_MARKET: arbitrage currently supports market=h2h only (received: "
            ++ "totals" ++ ")") ∧
    getArbitrage degradedOddsApi ⟨"basketball_nba", "totals", none, none, none⟩
      = .error ⟨422, "UNSUPPORTED_MARKET",
          "UNSUPPORTED_MARKET: arbitrage currently supports market=h2h only (received: "
            ++ "totals" ++ ")"⟩ :=
  arbitrage_unsupported_market_c3 degradedOddsApi
    ⟨"basketball_nba", "totals", none, none, none⟩ (by decide)

lemma sortByEdgeDesc_pairwise (l : List ArbitrageOpportunity) :
    List.Pairwise (fun a b => b.edgePercent ≤ a.edgePercent) (sortByEdgeDesc l) := by
  unfold sortByEdgeDesc
  have htrans : ∀ a b c : ArbitrageOpportunity,
      decide (b.edgePercent ≤ a.edgePercent) = true →
      decide (c.edgePercent ≤ b.edgePercent) = true →
      decide (c.edgePercent ≤ a.edgePercent) = true := by
    intro a b c hab hbc
    rw [decide_eq_true_eq] at hab hbc ⊢
    exact le_trans hbc hab
  have htotal : ∀ a b : ArbitrageOpportunity,
      (decide (b.edgePercent ≤ a.edgePercent)
        || decide (a.edgePercent ≤ b.edgePercent)) = true := by
    intro a b
    rw [Bool.or_eq_true, decide_eq_true_eq, decide_eq_true_eq]
    exact le_total _ _
  exact (List.sorted_mergeSort htrans htotal l).imp (fun hab => of_decide_eq_true hab)

lemma impliedSum_pair (n1 n2 : String) (e1 e2 : BestEntry)
    (h1 : e1.price ≠ 0) (h2 : e2.price ≠ 0) :
    impliedSumOfLegs ([(n1, e1), (n2, e2)].map legOf)
      = 1 / americanToDecimal e1.price + 1 / americanToDecimal e2.price := by
  have hd1 := americanToDecimal_pos h1
  have hd2 := americanToDecimal_pos h2
  unfold impliedSumOfLegs legOf
  simp [hd1, hd2]

lemma eventOpportunity_two (sport market : String) (ev : FeedEvent) (n1 n2 : String)
    (e1 e2 : BestEntry) (hbest : collectBest market ev = [(n1, e1), (n2, e2)])
    (h1 : e1.price ≠ 0) (h2 : e2.price ≠ 0) :
    eventOpportunity sport market ev
      = (if (1 / americanToDecimal e1.price + 1 / americanToDecimal e2.price) < 1 then
          some { eventId := ev.id, commenceTime := ev.commence_time,
                 homeTeam := ev.home_team, awayTeam := ev.away_team,
                 sportKey := sport, market := market,
                 impliedSum := 1 / americanToDecimal e1.price
                   + 1 / americanToDecimal e2.price,
                 edgePercent := (1 / (1 / americanToDecimal e1.price
                   + 1 / americanToDecimal e2.price) - 1) * 100,
                 legs := [(n1, e1), (n2, e2)].map legOf }
        else none) := by
  have hd1 := americanToDecimal_pos h1
  have hd2 := americanToDecimal_pos h2
  have hspos : 0 < 1 / americanToDecimal e1.price + 1 / americanToDecimal e2.price := by
    positivity
  unfold eventOpportunity
  rw [hbest, impliedSum_pair n1 n2 e1 e2 h1 h2]
  rw [if_pos (show ([(n1, e1), (n2, e2)] : List (String × BestEntry)).length = 2 from rfl),
    if_neg (not_le.mpr hspos)]

/-- C4: for an event whose best prices resolve to exactly two distinct outcome
names with nonzero prices, an opportunity is emitted iff the sum of the two
implied probabilities is strictly below 1, with edge percent
`(1/sum - 1) * 100`; `getArbitrage` for market h2h computes, over the fetched
events, the opportunity list sorted by descending edge percent and truncated to
the caller limit clamped to [1, 200] with default 50. -/
theorem arbitrage_two_way_c4 (api : OddsApi) (p : ArbParams) (ev : FeedEvent)
    (n1 n2 : String) (e1 e2 : BestEntry)
    (hm : p.market = "h2h")
    (hw : (api.odds (arbRequest p)).warning = none)
    (hbest : collectBest p.market ev = [(n1, e1), (n2, e2)])
    (h1 : e1.price ≠ 0) (h2 : e2.price ≠ 0) :
    ((∃ opp, eventOpportunity p.sport p.market ev = some opp)
        ↔ 1 / americanToDecimal e1.price + 1 / americanToDecimal e2.price < 1) ∧
    (∀ opp, eventOpportunity p.sport p.market ev = some opp →
        opp.impliedSum = 1 / americanToDecimal e1.price + 1 / americanToDecimal e2.price ∧
        opp.edgePercent
          = (1 / (1 / americanToDecimal e1.price + 1 / americanToDecimal e2.price) - 1)
            * 100) ∧
    getArbitrage api p = .ok (arbitrageCompute p (api.odds (arbRequest p))) ∧
    (arbitrageCompute p (api.odds (arbRequest p))).data
      = (sortByEdgeDesc
          ((api.odds (arbRequest p)).data.filterMap (eventOpportunity p.sport p.market))).take
        (max 1 (min 200 (p.top.getD 50))).toNat ∧
    List.Pairwise (fun a b => b.edgePercent ≤ a.edgePercent)
      (arbitrageCompute p (api.odds (arbRequest p))).data ∧
    (arbitrageCompute p (api.odds (arbRequest p))).data.length
      ≤ (max 1 (min 200 (p.top.getD 50))).toNat := by
  have hred := eventOpportunity_two p.sport p.market ev n1 n2 e1 e2 hbest h1 h2
  have hcompute : (arbitrageCompute p (api.odds (arbRequest p))).data
      = (sortByEdgeDesc
          ((api.odds (arbRequest p)).data.filterMap (eventOpportunity p.sport p.market))).take
        (max 1 (min 200 (p.top.getD 50))).toNat := by
    simp only [arbitrageCompute, hw, arbLimit]
  refine ⟨?_, ?_, ?_, hcompute, ?_, ?_⟩
  · rw [hred]
    by_cases hs : 1 / americanToDecimal e1.price + 1 / americanToDecimal e2.price < 1
    · rw [if_pos hs]
      exact ⟨fun _ => hs, fun _ => ⟨_, rfl⟩⟩
    · rw [if_neg hs]
      exact ⟨fun ⟨opp, hopp⟩ => absurd hopp (by simp), fun hs1 => absurd hs1 hs⟩
  · intro opp hopp
    rw [hred] at hopp
    by_cases hs : 1 / americanToDecimal e1.price + 1 / americanToDecimal e2.price < 1
    · rw [if_pos hs] at hopp
      injection hopp with hopp
      subst hopp
      exact ⟨rfl, rfl⟩
    · rw [if_neg hs] at hopp
      cases hopp
  · unfold getArbitrage arbitrageFirstStep
    rw [if_neg (by rw [hm]; exact fun h => h rfl)]
  · rw [hcompute]
    exact (sortByEdgeDesc_pairwise _).sublist (List.take_sublist _ _)
  · rw [hcompute]
    exact List.length_take_le _ _

/-- Witness for C4: the sample feed (prices +150 and -120 on outcomes Alpha and
Beta), default limit. -/
theorem arbitrage_two_way_c4_witness :
    ((∃ opp, eventOpportunity "nba" "h2h" sampleEvent = some opp)
        ↔ 1 / americanToDecimal (150:Rat) + 1 / americanToDecimal (-120:Rat) < 1) ∧
    (∀ opp, eventOpportunity "nba" "h2h" sampleEvent = some opp →
        opp.impliedSum = 1 / americanToDecimal (150:Rat) + 1 / americanToDecimal (-120:Rat) ∧
        opp.edgePercent
          = (1 / (1 / americanToDecimal (150:Rat) + 1 / americanToDecimal (-120:Rat)) - 1)
            * 100) ∧
    getArbitrage sampleOddsApi ⟨"nba", "h2h", none, none, none⟩
      = .ok (arbitrageCompute ⟨"nba", "h2h", none, none, none⟩
          (sampleOddsApi.odds (arbRequest ⟨"nba", "h2h", none, none, none⟩))) ∧
    (arbitrageCompute ⟨"nba", "h2h", none, none, none⟩
        (sampleOddsApi.odds (arbRequest ⟨"nba", "h2h", none, none, none⟩))).data
      = (sortByEdgeDesc
          ((sampleOddsApi.odds (arbRequest ⟨"nba", "h2h", none, none, none⟩)).data.filterMap
            (eventOpportunity "nba" "h2h"))).take
        (max 1 (min 200 ((none : Option Int).getD 50))).toNat ∧
    List.Pairwise (fun a b => b.edgePercent ≤ a.edgePercent)
      (arbitrageCompute ⟨"nba", "h2h", none, none, none⟩
        (sampleOddsApi.odds (arbRequest ⟨"nba", "h2h", none, none, none⟩))).data ∧
    (arbitrageCompute ⟨"nba", "h2h", none, none, none⟩
        (sampleOddsApi.odds (arbRequest ⟨"nba", "h2h", none, none, none⟩))).data.length
      ≤ (max 1 (min 200 ((none : Option Int).getD 50))).toNat :=
  arbitrage_two_way_c4 sampleOddsApi ⟨"nba", "h2h", none, none, none⟩ sampleEvent
    "Alpha" "Beta" ⟨some "bookie", 150⟩ ⟨some "bookie", -120⟩
    rfl rfl (by decide) (by decide) (by decide)

/-! ### Cheat-sheet service (`CheatSheetService.getPlayerPropsCheatSheet`) -/

/-- JavaScript `toLowerCase` (ASCII fragment) over the character list. -/
def toLowerStr (s : String) : String :=
  String.mk (s.data.map Char.toLower)

/-- JavaScript `startsWith`. -/
def startsWithStr (s pre : String) : Bool :=
  decide (s.data.take pre.data.length = pre.data)

/-- The player-prop market test `market.toLowerCase().startsWith("player_")`
shared by `OddsApiService` and `CheatSheetService`. -/
def isPlayerPropMarket (market : String) : Bool :=
  startsWithStr (toLowerStr market) "player_"

/-- One cheat-sheet row. -/
structure CheatSheetOutcome where
  eventId : Option String
  commenceTime : Option Nat
  homeTeam : Option String
  awayTeam : Option String
  sportKey : String
  player : String
  side : String
  line : Option Rat
  bestBookmaker : Option String
  bestPrice : Option Rat
  impliedProbability : Option Rat
deriving DecidableEq

/-- Result of `getPlayerPropsCheatSheet`. -/
structure CheatSheetResult where
  data : List CheatSheetOutcome
  remaining : Nat
  warning : Option String
deriving DecidableEq

/-- Parameters of `getPlayerPropsCheatSheet`. -/
structure CheatSheetParams where
  sport : String
  market : String
  regions : Option (List String)
  oddsFormat : Option String
  top : Option Int
deriving DecidableEq

/-- The cheat-sheet file's private `americanToImpliedProb`: `NaN` (absent) for a
zero price, else the implied probability of the American price. -/
def cheatImpliedProb (price : Rat) : Option Rat :=
  if price = 0 then none
  else if price < 0 then some (|price| / (|price| + 100))
  else some (100 / (price + 100))

/-- A cheat-sheet key. The source concatenates
`eventId + "|" + player + "|" + side + "|" + (line ?? "null")`; the embedding
keys on the components directly. -/
abbrev SheetKey := Option String × String × String × Option Rat

/-- The candidate row built for one outcome of one bookmaker of one event. -/
def sheetCandidate (sport market : String) (ev : FeedEvent)
    (bookmakerKey : Option String) (o : FeedOutcome) : CheatSheetOutcome :=
  let outcomeName := trimStr (o.name.getD "")
  let participant := trimStr (jsOrStr o.description (jsOrStr o.participant (jsOrStr o.player "")))
  let isPlayer := isPlayerPropMarket market
  { eventId := ev.id, commenceTime := ev.commence_time,
    homeTeam := ev.home_team, awayTeam := ev.away_team, sportKey := sport,
    player := if isPlayer then participant
      else if outcomeName = "" then participant else outcomeName,
    side := if isPlayer then outcomeName else market,
    line := o.point,
    bestBookmaker := bookmakerKey, bestPrice := o.price,
    impliedProbability := o.price.bind cheatImpliedProb }

/-- The best-price choice between an existing entry and a candidate: a priced
candidate beats an unpriced entry; between two priced rows the strictly higher
American price wins; everything else (including ties) keeps the existing row. -/
def sheetStep (existing cand : CheatSheetOutcome) : CheatSheetOutcome :=
  match existing.bestPrice, cand.bestPrice with
  | none, some _ => cand
  | some ep, some cp => if ep < cp then cand else existing
  | _, _ => existing

/-- `bestMap.set`-style update: a new key is appended, an existing key keeps
its position and is updated to the winner of `sheetStep`. -/
def sheetUpsert (m : List (SheetKey × CheatSheetOutcome)) (k : SheetKey)
    (cand : CheatSheetOutcome) : List (SheetKey × CheatSheetOutcome) :=
  match m.lookup k with
  | none => m ++ [(k, cand)]
  | some existing => m.map (fun p => if p.1 = k then (k, sheetStep existing cand) else p)

/-- Fold one outcome into the best map; rows with an empty player or side are
skipped. -/
def sheetFoldOutcome (sport market : String) (ev : FeedEvent)
    (bookmakerKey : Option String) (m : List (SheetKey × CheatSheetOutcome))
    (o : FeedOutcome) : List (SheetKey × CheatSheetOutcome) :=
  let cand := sheetCandidate sport market ev bookmakerKey o
  if cand.player = "" ∨ cand.side = "" then m
  else sheetUpsert m (ev.id, cand.player, cand.side, o.point) cand

/-- Fold one bookmaker: only its market matching the requested key contributes. -/
def sheetFoldBookmaker (sport market : String) (ev : FeedEvent)
    (m : List (SheetKey × CheatSheetOutcome)) (bm : FeedBookmaker) :
    List (SheetKey × CheatSheetOutcome) :=
  match bm.markets.find? (fun mkObj => decide (mkObj.key = some market)) with
  | none => m
  | some mkObj => mkObj.outcomes.foldl (sheetFoldOutcome sport market ev bm.key) m

/-- Fold one event's bookmakers. -/
def sheetFoldEvent (sport market : String) (m : List (SheetKey × CheatSheetOutcome))
    (ev : FeedEvent) : List (SheetKey × CheatSheetOutcome) :=
  ev.bookmakers.foldl (sheetFoldBookmaker sport market ev) m

/-- All retained rows in first-insertion order (`Array.from(bestMap.values())`). -/
def buildSheetRows (sport market : String) (events : List FeedEvent) :
    List CheatSheetOutcome :=
  (events.foldl (sheetFoldEvent sport market) []).map Prod.snd

/-- The sort comparator: soonest event first (absent time counts 0), then
ascending implied probability (absent counts 1). -/
def sheetLe (a b : CheatSheetOutcome) : Bool :=
  if a.commenceTime.getD 0 ≠ b.commenceTime.getD 0 then
    decide (a.commenceTime.getD 0 < b.commenceTime.getD 0)
  else decide (a.impliedProbability.getD 1 ≤ b.impliedProbability.getD 1)

/-- The stable sort of the final rows. -/
def sortSheetRows (l : List CheatSheetOutcome) : List CheatSheetOutcome :=
  l.mergeSort sheetLe

/-- The result-size limit: `Math.max(1, Math.min(500, top))` with default 50. -/
def sheetLimit (top : Option Int) : Int :=
  max 1 (min 500 (top.getD 50))

/-- Build, sort and truncate the rows of a warning-free fetch. -/
def finishSheet (p : CheatSheetParams) (events : List FeedEvent) (remaining : Nat) :
    CheatSheetResult :=
  { data := (sortSheetRows (buildSheetRows p.sport p.market events)).take
      (sheetLimit p.top).toNat,
    remaining := remaining, warning := none }

/-- One per-event odds fetch of the player-prop branch, threading the enriched
event list and the running remaining counter. -/
def sheetFetchEvent (api : OddsApi) (p : CheatSheetParams)
    (acc : List FeedEvent × Nat) (ev : FeedEvent) : List FeedEvent × Nat :=
  match ev.id with
  | none => acc
  | some eid =>
    if eid = "" then acc
    else
      let req : EventOddsRequestParams :=
        { sport := p.sport, eventId := eid,
          regions := some (p.regions.getD ["us"]), markets := some [p.market],
          oddsFormat := some (p.oddsFormat.getD "american") }
      let r := api.eventOdds req
      (match r.data with
       | some d => acc.1 ++ [d]
       | none => acc.1,
       r.remaining)

/-- `CheatSheetService.getPlayerPropsCheatSheet`: non-player markets use the
single-sport odds endpoint, player markets list events (first 10) and fetch
per-event odds; a feed warning short-circuits with empty data and the warning. -/
def getPlayerPropsCheatSheet (api : OddsApi) (p : CheatSheetParams) : CheatSheetResult :=
  if isPlayerPropMarket p.market then
    let eventsRes := api.events p.sport
    match eventsRes.warning with
    | some w => { data := [], remaining := eventsRes.remaining, warning := some w }
    | none =>
      let fetched := (eventsRes.data.take 10).foldl (sheetFetchEvent api p)
        ([], eventsRes.remaining)
      finishSheet p fetched.1 fetched.2
  else
    let req : OddsRequestParams :=
      { sport := p.sport, regions := some (p.regions.getD ["us"]),
        markets := some [p.market], oddsFormat := some (p.oddsFormat.getD "american") }
    let oddsRes := api.odds req
    match oddsRes.warning with
    | some w => { data := [], remaining := oddsRes.remaining, warning := some w }
    | none => finishSheet p oddsRes.data oddsRes.remaining

/-- Outcome quoting Team X at -110 (first bookmaker of the C6 example). -/
def sheetOutcomeLow : FeedOutcome :=
  { name := some "Team X", description := none, participant := none, player := none,
    point := none, price := some (-110), odds := none }

/-- Outcome quoting Team X at +105 (second bookmaker of the C6 example). -/
def sheetOutcomeHigh : FeedOutcome :=
  { name := some "Team X", description := none, participant := none, player := none,
    point := none, price := some 105, odds := none }

/-- First bookmaker of the C6 example. -/
def sheetBmA : FeedBookmaker :=
  { key := some "bookA", title := some "Book A", last_update := none,
    markets := [{ key := some "h2h", outcomes := [sheetOutcomeLow] }] }

/-- Second bookmaker of the C6 example. -/
def sheetBmB : FeedBookmaker :=
  { key := some "bookB", title := some "Book B", last_update := none,
    markets := [{ key := some "h2h", outcomes := [sheetOutcomeHigh] }] }

/-- The event of the C6 example: the same (event, player, side, line) key quoted
-110 and +105 across two bookmakers. -/
def sheetSampleEventX : FeedEvent :=
  { id := some "evX", commence_time := some 1000, home_team := some "Team X",
    away_team := some "Team Y", bookmakers := [sheetBmA, sheetBmB] }

/-- Feed oracle for the C6 example. -/
def sheetSampleApi : OddsApi where
  odds := fun _ => { data := [sheetSampleEventX], remaining := 7, warning := none }
  events := fun _ => { data := [], remaining := 7, warning := none }
  eventOdds := fun _ => { data := none, remaining := 7, warning := none }
  sports := { data := [], remaining := 7, warning := none }

/-- C6: a candidate replaces the retained cheat-sheet entry exactly when its
price is strictly higher than the existing price, or when the candidate has a
price and the existing entry has none — ties and unpriced candidates keep the
existing entry — and on the concrete example (-110 and +105 quoted for the same
key by two bookmakers) the retained best price is +105. -/
theorem cheat_sheet_best_price_c6 :
    (∀ existing cand : CheatSheetOutcome,
      (sheetStep existing cand = cand ∧
        ((∃ cp ep, cand.bestPrice = some cp ∧ existing.bestPrice = some ep ∧ ep < cp) ∨
          (cand.bestPrice ≠ none ∧ existing.bestPrice = none))) ∨
      (sheetStep existing cand = existing ∧
        ¬((∃ cp ep, cand.bestPrice = some cp ∧ existing.bestPrice = some ep ∧ ep < cp) ∨
          (cand.bestPrice ≠ none ∧ existing.bestPrice = none)))) ∧
    (getPlayerPropsCheatSheet sheetSampleApi ⟨"nba", "h2h", none, none, none⟩).data.map
        (fun r => r.bestPrice) = [some 105] := by
  constructor
  · intro existing cand
    rcases hep : existing.bestPrice with _ | ep <;> rcases hcp : cand.bestPrice with _ | cp
    · refine Or.inr ⟨by unfold sheetStep; rw [hep, hcp], ?_⟩
      rintro (⟨cp, ep, hc, _, _⟩ | ⟨hc, _⟩)
      · cases hc
      · exact hc rfl
    · exact Or.inl ⟨by unfold sheetStep; rw [hep, hcp], Or.inr ⟨by simp, rfl⟩⟩
    · refine Or.inr ⟨by unfold sheetStep; rw [hep, hcp], ?_⟩
      rintro (⟨cp2, ep2, hc, _, _⟩ | ⟨hc, _⟩)
      · cases hc
      · exact hc rfl
    · by_cases hlt : ep < cp
      · exact Or.inl ⟨by unfold sheetStep; rw [hep, hcp]; exact if_pos hlt,
          Or.inl ⟨cp, ep, rfl, rfl, hlt⟩⟩
      · refine Or.inr ⟨by unfold sheetStep; rw [hep, hcp]; exact if_neg hlt, ?_⟩
        rintro (⟨cp2, ep2, hc, he, hlt2⟩ | ⟨_, he⟩)
        · injection hc with hc
          injection he with he
          subst hc
          subst he
          exact hlt hlt2
        · cases he
  · have hlen : (buildSheetRows "nba" "h2h" [sheetSampleEventX]).length = 1 := by decide
    obtain ⟨row, hrow⟩ := List.length_eq_one.mp hlen
    have hmap : (buildSheetRows "nba" "h2h" [sheetSampleEventX]).map
        (fun r => r.bestPrice) = [some 105] := by decide
    rw [hrow] at hmap
    simp only [List.map_cons, List.map_nil, List.cons.injEq, and_true] at hmap
    have hdata : (getPlayerPropsCheatSheet sheetSampleApi ⟨"nba", "h2h", none, none, none⟩).data
        = (sortSheetRows (buildSheetRows "nba" "h2h" [sheetSampleEventX])).take 50 := rfl
    rw [hdata, hrow]
    unfold sortSheetRows
    rw [List.mergeSort_singleton]
    simp [hmap]

/-! ### Feed client control flow (`OddsApiService.getOdds`) and the
positive-EV controller (`sportsToolsController.getPositiveEV`) -/

/-- What `OddsApiService.getOdds` does before reaching the HTTP request: return
the degraded result (no upstream call), throw `INVALID_MARKET`, or proceed
upstream with defaults applied. -/
inductive GetOddsOutcome where
  | result (r : OddsFeedResult)
  | invalidMarket (status : Nat) (code : String) (message : String)
  | upstream (sport : String) (regions : List String) (markets : List String)
      (oddsFormat : String)
deriving DecidableEq

/-- Control flow of `OddsApiService.getOdds`: the credential check
(`!this.getApikey()`, the trimmed environment value) comes first and returns
the degraded result; only with a key present are player-prop markets rejected
with `INVALID_MARKET` before the upstream request. -/
def getOddsStep (apiKey : String) (p : OddsRequestParams) : GetOddsOutcome :=
  if trimStr apiKey = "" then
    .result { data := [], remaining := 0, warning := some notConfiguredWarning }
  else
    let markets := p.markets.getD ["h2h", "spreads", "totals"]
    if markets.any (fun m => isPlayerPropMarket m) then
      .invalidMarket 422 "INVALID_MARKET"
        "INVALID_MARKET: Player prop markets are not supported on /odds. Use /events/{eventId}/odds instead."
    else
      .upstream p.sport (p.regions.getD ["us"]) markets (p.oddsFormat.getD "american")

/-- C10: with no upstream credential (empty trimmed key), `getOdds` returns the
degraded warning result for every input — including inputs whose market list
names a player-prop market — and the `INVALID_MARKET` rejection is never
reached; the degraded result is exactly the response of the degraded oracle. -/
theorem degraded_precedes_market_check_c10 (apiKey : String) (p : OddsRequestParams)
    (hk : trimStr apiKey = "") :
    getOddsStep apiKey p
      = .result { data := [], remaining := 0, warning := some notConfiguredWarning } ∧
    (∀ s c m, getOddsStep apiKey p ≠ .invalidMarket s c m) ∧
    getOddsStep apiKey p = .result (degradedOddsApi.odds p) := by
  have h1 : getOddsStep apiKey p
      = .result { data := [], remaining := 0, warning := some notConfiguredWarning } := by
    unfold getOddsStep
    rw [if_pos hk]
  refine ⟨h1, ?_, h1⟩
  intro s c m hcontra
  rw [h1] at hcontra
  cases hcontra

/-- Witness for C10: empty key and a request whose market list contains the
player-prop market `player_points`. -/
theorem degraded_precedes_market_check_c10_witness :
    getOddsStep "" ⟨"basketball_nba", none, some ["player_points"], none⟩
      = .result { data := [], remaining := 0, warning := some notConfiguredWarning } ∧
    (∀ s c m, getOddsStep "" ⟨"basketball_nba", none, some ["player_points"], none⟩
      ≠ .invalidMarket s c m) ∧
    getOddsStep "" ⟨"basketball_nba", none, some ["player_points"], none⟩
      = .result (degradedOddsApi.odds ⟨"basketball_nba", none, some ["player_points"], none⟩) :=
  degraded_precedes_market_check_c10 "" ⟨"basketball_nba", none, some ["player_points"], none⟩
    (by decide)

/-- Query parameters of the `getPositiveEV` controller. -/
structure PositiveEVQuery where
  sport : Option String
  region : Option String
  markets : Option String
  oddsFormat : Option String
deriving DecidableEq

/-- Comma-split, trim and drop empties, as the controller does for the region
and market query strings. -/
def splitCsv (s : String) : List String :=
  ((s.splitOn ",").map trimStr).filter (fun x => x ≠ "")

/-- `OddsApiService.getSportByKey`: look the key up in the full sports listing
(empty in degraded mode, hence `none`). -/
def getSportByKey (api : OddsApi) (sportKey : String) : Option SportMeta :=
  api.sports.data.find? (fun s => decide (s.key = sportKey))

/-- One candidate positive-EV bet. -/
structure PositiveEVBet where
  sportTitle : String
  sportGroup : String
  region : String
  eventId : Option String
  outcome : String
  bestPrice : Rat
  bestImplied : Rat
  consensusImplied : Rat
deriving DecidableEq

/-- All (outcome name, price) pairs of an event across bookmakers and markets. -/
def evOutcomePrices (ev : FeedEvent) : List (String × Rat) :=
  ev.bookmakers.flatMap (fun bm =>
    bm.markets.flatMap (fun mkObj =>
      mkObj.outcomes.filterMap (fun o =>
        match o.price with
        | some pr =>
          let n := trimStr (o.name.getD "")
          if n = "" then none else some (n, pr)
        | none => none)))

/-- Modelled from the spec: `PositiveEVService.findPositiveEVBets` is not among
the available sources — only its caller `sportsToolsController.getPositiveEV`
is. Per spec section 4.5, positive-EV detection scans the fetched odds payload
and identifies bets whose implied probability from the best available price is
favorable relative to a consensus baseline across bookmakers (here: the average
implied probability of all quotes for the outcome), annotating candidates with
the sport title and group; an empty payload yields no bets. -/
def findPositiveEVBets (events : List FeedEvent)
    (sportTitle sportGroup region : String) : List PositiveEVBet :=
  events.flatMap (fun ev =>
    let pairs := evOutcomePrices ev
    ((pairs.map Prod.fst).dedup).filterMap (fun n =>
      let prices := (pairs.filter (fun q => decide (q.1 = n))).map Prod.snd
      match prices with
      | [] => none
      | pr0 :: rest =>
        let best := rest.foldl max pr0
        let bestImplied := americanToImpliedProb best
        let consensus :=
          ((prices.map americanToImpliedProb).foldl (· + ·) 0) / (prices.length : Rat)
        if bestImplied < consensus then
          some { sportTitle := sportTitle, sportGroup := sportGroup, region := region,
                 eventId := ev.id, outcome := n, bestPrice := best,
                 bestImplied := bestImplied, consensusImplied := consensus }
        else none))

/-- Response of the `getPositiveEV` controller. The source's JSON carries the
sport metadata, region, count and bets; it contains no warning key — the absent
key is modelled as the always-`none` field `warning`. -/
structure PositiveEVResponse where
  success : Bool
  sportKey : String
  sportTitle : String
  sportGroup : String
  region : String
  count : Nat
  bets : List PositiveEVBet
  warning : Option String
deriving DecidableEq

/-- The `getOdds` request the controller builds from its query defaults. -/
def positiveEVOddsRequest (q : PositiveEVQuery) : OddsRequestParams :=
  { sport := jsOrStr q.sport "basketball_nba",
    regions := some (splitCsv (jsOrStr q.region "us")),
    markets := some (splitCsv (jsOrStr q.markets "h2h,spreads,totals")),
    oddsFormat := some (jsOrStr q.oddsFormat "american") }

/-- `sportsToolsController.getPositiveEV`: resolve the sport metadata, fetch
odds, run positive-EV detection on the returned payload and answer with the
bets; the feed's warning is not consulted and not part of the response. -/
def getPositiveEV (api : OddsApi) (q : PositiveEVQuery) : PositiveEVResponse :=
  let sportKey := jsOrStr q.sport "basketball_nba"
  let region := jsOrStr q.region "us"
  let sport := getSportByKey api sportKey
  let oddsResp := api.odds (positiveEVOddsRequest q)
  let title := jsOrStr (sport.map (fun s => s.title)) sportKey
  let group := jsOrStr (sport.map (fun s => s.group)) "Unknown"
  let bets := findPositiveEVBets oddsResp.data title group region
  { success := true, sportKey := sportKey, sportTitle := title, sportGroup := group,
    region := region, count := bets.length, bets := bets, warning := none }

/-- C9 (amended): in degraded mode the arbitrage and cheat-sheet entry points
return empty data with the feed's warning surfaced and raise no error; the
positive-EV entry point returns zero bets and raises no error, but does not
surface the warning text — its response carries no warning. -/
theorem analytics_warning_passthrough_c9 :
    (∀ p : ArbParams, p.market = "h2h" →
      getArbitrage degradedOddsApi p
        = .ok { data := [], remaining := 0, warning := some notConfiguredWarning }) ∧
    (∀ p : CheatSheetParams,
      getPlayerPropsCheatSheet degradedOddsApi p
        = { data := [], remaining := 0, warning := some notConfiguredWarning }) ∧
    (∀ q : PositiveEVQuery,
      (getPositiveEV degradedOddsApi q).bets = [] ∧
      (getPositiveEV degradedOddsApi q).count = 0 ∧
      (getPositiveEV degradedOddsApi q).success = true ∧
      (getPositiveEV degradedOddsApi q).warning = none) := by
  refine ⟨?_, ?_, ?_⟩
  · intro p hm
    unfold getArbitrage arbitrageFirstStep
    rw [if_neg (by rw [hm]; exact fun h => h rfl)]
    rfl
  · intro p
    unfold getPlayerPropsCheatSheet
    cases h : isPlayerPropMarket p.market
    · rw [if_neg Bool.false_ne_true]
      rfl
    · rw [if_pos rfl]
      rfl
  · intro q
    exact ⟨rfl, rfl, rfl, rfl⟩

/-- Witness for C9 at concrete parameters for each entry point. -/
theorem analytics_warning_passthrough_c9_witness :
    getArbitrage degradedOddsApi ⟨"basketball_nba", "h2h", none, none, none⟩
      = .ok { data := [], remaining := 0, warning := some notConfiguredWarning } ∧
    getPlayerPropsCheatSheet degradedOddsApi ⟨"basketball_nba", "player_points", none, none, none⟩
      = { data := [], remaining := 0, warning := some notConfiguredWarning } ∧
    (getPositiveEV degradedOddsApi ⟨none, none, none, none⟩).warning = none :=
  ⟨analytics_warning_passthrough_c9.1 ⟨"basketball_nba", "h2h", none, none, none⟩ rfl,
   analytics_warning_passthrough_c9.2.1 ⟨"basketball_nba", "player_points", none, none, none⟩,
   (analytics_warning_passthrough_c9.2.2 ⟨none, none, none, none⟩).2.2.2⟩

/-- Counterexample to C9 as stated: with the feed degraded (warning reported on
the very request the controller issues), the positive-EV response surfaces no
warning text. -/
theorem analytics_warning_counterexample_c9 :
    (getPositiveEV degradedOddsApi ⟨none, none, none, none⟩).warning = none ∧
    (degradedOddsApi.odds (positiveEVOddsRequest ⟨none, none, none, none⟩)).warning
      = some notConfiguredWarning := ⟨rfl, rfl⟩

/-! ### Snapshot archival (`OddsIngestionService.archiveOldSnapshots`) -/

/-- The archival cutoff `Date.now() - daysOld * 24 * 60 * 60 * 1000`. -/
def archiveCutoff (daysOld now : Nat) : Nat :=
  now - daysOld * 24 * 60 * 60 * 1000

/-- The hot snapshots selected for archival: fetch time strictly before the
cutoff. -/
def oldSnapshots (daysOld now : Nat) (st : Store) : List (Nat × OddsSnapshotRow) :=
  st.snapshots.filter (fun p => decide (p.2.fetched_at < archiveCutoff daysOld now))

/-- `OddsIngestionService.archiveOldSnapshots`: no-op returning 0 when nothing
qualifies; otherwise best-effort insert the selected rows (plus the archive
timestamp) into the archive — duplicates are skipped, the batch continues —
then unconditionally delete the selected ids from the hot table and return the
selected count. -/
def archiveOldSnapshots (daysOld now archivedAtNow : Nat) (st : Store) : Store × Nat :=
  if oldSnapshots daysOld now st = [] then (st, 0)
  else
    ({ st with
        archive := applyInserts st.archive
          ((oldSnapshots daysOld now st).map
            (fun p => (p.1, { snap := p.2, archived_at := archivedAtNow }))),
        snapshots := st.snapshots.filter
          (fun p => decide (p.1 ∉ (oldSnapshots daysOld now st).map Prod.fst)) },
     (oldSnapshots daysOld now st).length)

lemma archiveOldSnapshots_of_empty {daysOld now archivedAtNow : Nat} {st : Store}
    (h : oldSnapshots daysOld now st = []) :
    archiveOldSnapshots daysOld now archivedAtNow st = (st, 0) := by
  unfold archiveOldSnapshots
  rw [if_pos h]

lemma mem_oldSnapshots_iff {daysOld now : Nat} {st : Store} {p : Nat × OddsSnapshotRow}
    (hp : p ∈ st.snapshots) :
    p ∈ oldSnapshots daysOld now st ↔ p.2.fetched_at < archiveCutoff daysOld now := by
  unfold oldSnapshots
  rw [List.mem_filter]
  simp [hp]

lemma archive_post_no_old (daysOld now archivedAtNow : Nat) (st : Store) :
    ∀ p ∈ (archiveOldSnapshots daysOld now archivedAtNow st).1.snapshots,
      ¬ p.2.fetched_at < archiveCutoff daysOld now := by
  intro p hp hfet
  by_cases hemp : oldSnapshots daysOld now st = []
  · unfold archiveOldSnapshots at hp
    rw [if_pos hemp] at hp
    have hold : p ∈ oldSnapshots daysOld now st := (mem_oldSnapshots_iff hp).mpr hfet
    rw [hemp] at hold
    cases hold
  · unfold archiveOldSnapshots at hp
    rw [if_neg hemp] at hp
    rw [List.mem_filter] at hp
    obtain ⟨hmem, hnotin⟩ := hp
    have hold : p ∈ oldSnapshots daysOld now st := (mem_oldSnapshots_iff hmem).mpr hfet
    rw [decide_eq_true_eq] at hnotin
    exact hnotin (List.mem_map_of_mem _ hold)

/-- C5: `archiveOldSnapshots` selects exactly the hot snapshots fetched
strictly before `now - daysOld` days; with none selected it returns 0 and
changes nothing; otherwise it duplicate-tolerantly inserts the selected rows
plus the archive timestamp into the archive table, unconditionally deletes the
selected ids from the hot table and returns the selected count; afterwards no
snapshot older than the cutoff remains hot and an immediate re-run archives 0. -/
theorem archive_old_snapshots_c5 (daysOld now archivedAtNow archivedAtNow2 : Nat)
    (st : Store) :
    (∀ p ∈ st.snapshots,
        p ∈ oldSnapshots daysOld now st
          ↔ p.2.fetched_at < now - daysOld * 24 * 60 * 60 * 1000) ∧
    (oldSnapshots daysOld now st = [] →
        archiveOldSnapshots daysOld now archivedAtNow st = (st, 0)) ∧
    (archiveOldSnapshots daysOld now archivedAtNow st).2
        = (oldSnapshots daysOld now st).length ∧
    (oldSnapshots daysOld now st ≠ [] →
        (archiveOldSnapshots daysOld now archivedAtNow st).1.archive
          = applyInserts st.archive ((oldSnapshots daysOld now st).map
              (fun p => (p.1, { snap := p.2, archived_at := archivedAtNow })))) ∧
    (oldSnapshots daysOld now st ≠ [] →
        (archiveOldSnapshots daysOld now archivedAtNow st).1.snapshots
          = st.snapshots.filter
              (fun p => decide (p.1 ∉ (oldSnapshots daysOld now st).map Prod.fst))) ∧
    (∀ p ∈ (archiveOldSnapshots daysOld now archivedAtNow st).1.snapshots,
        ¬ p.2.fetched_at < now - daysOld * 24 * 60 * 60 * 1000) ∧
    (archiveOldSnapshots daysOld now archivedAtNow2
        (archiveOldSnapshots daysOld now archivedAtNow st).1).2 = 0 := by
  refine ⟨?_, ?_, ?_, ?_, ?_, ?_, ?_⟩
  · intro p hp
    exact mem_oldSnapshots_iff hp
  · intro h
    unfold archiveOldSnapshots
    rw [if_pos h]
  · by_cases hemp : oldSnapshots daysOld now st = []
    · unfold archiveOldSnapshots
      rw [if_pos hemp, hemp]
      rfl
    · unfold archiveOldSnapshots
      rw [if_neg hemp]
  · intro h
    unfold archiveOldSnapshots
    rw [if_neg h]
  · intro h
    unfold archiveOldSnapshots
    rw [if_neg h]
  · exact archive_post_no_old daysOld now archivedAtNow st
  · have hnil : oldSnapshots daysOld now
        (archiveOldSnapshots daysOld now archivedAtNow st).1 = [] := by
      unfold oldSnapshots
      rw [List.filter_eq_nil_iff]
      intro p hp
      rw [decide_eq_true_eq]
      exact archive_post_no_old daysOld now archivedAtNow st p hp
    rw [archiveOldSnapshots_of_empty hnil]

/-- A hot snapshot older than the C5 witness cutoff. -/
def witnessOldRow : OddsSnapshotRow :=
  { id := 1, sportsbook_id := "book:a", selection_id := "sel:x", odds_format := "american",
    odds_value := 150, implied_prob := 0, fetched_at := 0 }

/-- A hot snapshot newer than the C5 witness cutoff. -/
def witnessNewRow : OddsSnapshotRow :=
  { id := 2, sportsbook_id := "book:a", selection_id := "sel:y", odds_format := "american",
    odds_value := 105, implied_prob := 0, fetched_at := 10000000000000 }

/-- Store with one old and one new hot snapshot for the C5 witness. -/
def witnessArchiveStore : Store :=
  { emptyStore with snapshots := [(1, witnessOldRow), (2, witnessNewRow)] }

/-- Witness for C5 at a concrete store holding one stale and one fresh
snapshot, with `daysOld = 7`. -/
theorem archive_old_snapshots_c5_witness :
    (∀ p ∈ witnessArchiveStore.snapshots,
        p ∈ oldSnapshots 7 1700000000000 witnessArchiveStore
          ↔ p.2.fetched_at < 1700000000000 - 7 * 24 * 60 * 60 * 1000) ∧
    (oldSnapshots 7 1700000000000 witnessArchiveStore = [] →
        archiveOldSnapshots 7 1700000000000 1700000000001 witnessArchiveStore
          = (witnessArchiveStore, 0)) ∧
    (archiveOldSnapshots 7 1700000000000 1700000000001 witnessArchiveStore).2
        = (oldSnapshots 7 1700000000000 witnessArchiveStore).length ∧
    (oldSnapshots 7 1700000000000 witnessArchiveStore ≠ [] →
        (archiveOldSnapshots 7 1700000000000 1700000000001 witnessArchiveStore).1.archive
          = applyInserts witnessArchiveStore.archive
              ((oldSnapshots 7 1700000000000 witnessArchiveStore).map
                (fun p => (p.1, { snap := p.2, archived_at := 1700000000001 })))) ∧
    (oldSnapshots 7 1700000000000 witnessArchiveStore ≠ [] →
        (archiveOldSnapshots 7 1700000000000 1700000000001 witnessArchiveStore).1.snapshots
          = witnessArchiveStore.snapshots.filter
              (fun p => decide
                (p.1 ∉ (oldSnapshots 7 1700000000000 witnessArchiveStore).map Prod.fst))) ∧
    (∀ p ∈ (archiveOldSnapshots 7 1700000000000 1700000000001 witnessArchiveStore).1.snapshots,
        ¬ p.2.fetched_at < 1700000000000 - 7 * 24 * 60 * 60 * 1000) ∧
    (archiveOldSnapshots 7 1700000000000 1700000000002
        (archiveOldSnapshots 7 1700000000000 1700000000001 witnessArchiveStore).1).2 = 0 :=
  archive_old_snapshots_c5 7 1700000000000 1700000000001 1700000000002 witnessArchiveStore
